import Mathlib

/-!
Verification of the Loop Music playback engine (js/player.js).

The `Player` class of the source is embedded shallowly: its mutable fields
become a `Player` structure, each method becomes a function from `Player`
to `Player` (or to `Except String Player` for async methods that may
reject), and every external collaborator (stream resolution, history,
likes, the Groq recommendation service, `Math.random`) is threaded in as
an `Env` of oracles so that the embedded functions stay pure and
executable.  JavaScript array primitives (`splice`, `slice`, indexing,
`findIndex`) are modelled by the helpers below with the ECMAScript
clamping semantics.
-/

universe u

/-- JS array read `l[i]`: `undefined` (here `none`) outside `[0, length)`. -/
def jsIndex {α : Type u} (l : List α) (i : Int) : Option α :=
  if 0 ≤ i then l.get? i.toNat else none

/-- ECMAScript `splice`/`slice` start clamping: a negative index counts from
the end (floored at 0), a nonnegative one is capped at the length. -/
def jsSpliceStart (len : Nat) (i : Int) : Nat :=
  if i < 0 then ((len : Int) + i).toNat else min i.toNat len

/-- Insert `x` at position `n` (as `splice(n, 0, x)` does once the start has
been clamped). -/
def insertAt {α : Type u} (l : List α) (n : Nat) (x : α) : List α :=
  l.take n ++ x :: l.drop n

/-- Remove the element at position `n` (as `splice(n, 1)` does once the start
has been clamped); out of range it removes nothing. -/
def removeAt {α : Type u} (l : List α) (n : Nat) : List α :=
  l.take n ++ l.drop (n + 1)

/-- JS `l.slice(s, e)` with ECMAScript index clamping. -/
def jsSlice {α : Type u} (l : List α) (s e : Int) : List α :=
  let a := jsSpliceStart l.length s
  let b := jsSpliceStart l.length e
  (l.drop a).take (b - a)

/-- A track as the player uses it: an opaque numeric id plus the flags the
player itself reads or writes.  Display metadata (title, artists, album,
duration) only feeds the UI and the recommendation prompts, so it is not
carried. -/
structure Track where
  id : Nat
  isLocal : Bool := false
  isRecommendation : Bool := false
  isAutoqueue : Bool := false
deriving DecidableEq

/-- JS `l.findIndex(t => t.id === tid)`: first matching position, `-1` when
no element matches. -/
def jsFindIndexTrack (l : List Track) (tid : Nat) : Int :=
  match l with
  | [] => -1
  | t :: rest =>
    if t.id = tid then 0
    else
      let r := jsFindIndexTrack rest tid
      if r = -1 then -1 else r + 1

/-- The preload cache, a `Map` from track id to resolved stream URL kept in
insertion order.  `has` test. -/
def cacheHas (c : List (Nat × String)) (k : Nat) : Bool :=
  c.any (fun e => e.1 == k)

/-- `Map.set` for a key already known to be absent (the only way the player
inserts): append. -/
def cacheSet (c : List (Nat × String)) (k : Nat) (v : String) : List (Nat × String) :=
  c ++ [(k, v)]

/-- Modelled from the spec: `REPEAT_MODE` lives in utils.js, which is not
among the sources; the spec gives `repeatMode ∈ {OFF, ONE, ALL}` and the
player cycles it with `(repeatMode + 1) % 3`, so the three constants are
numbered 0, 1, 2.  No claim depends on the numbering. -/
def REPEAT_MODE_OFF : Nat := 0

/-- Modelled from the spec: see `REPEAT_MODE_OFF`. -/
def REPEAT_MODE_ONE : Nat := 1

/-- Modelled from the spec: see `REPEAT_MODE_OFF`. -/
def REPEAT_MODE_ALL : Nat := 2

/-- The mutable state of the `Player` class that the queue, shuffle,
autoqueue and preload logic reads or writes.  Pure UI handles (DOM nodes,
dash.js, media session) and the sleep timer are omitted: no claim touches
them. -/
structure Player where
  queue : List Track := []
  shuffledQueue : List Track := []
  originalQueueBeforeShuffle : List Track := []
  currentQueueIndex : Int := -1
  shuffleActive : Bool := false
  smartShuffleActive : Bool := false
  repeatMode : Nat := REPEAT_MODE_OFF
  currentTrack : Option Track := none
  preloadCache : List (Nat × String) := []
  autoqueueEnabled : Bool := false
  autoqueueLoading : Bool := false
  autoqueueSeeds : List Track := []
deriving DecidableEq

/-- One recommendation coming out of `groqService.getRecommendations` in
`enableSmartShuffle`, fused with the outcome of the `api.searchTracks`
call the player performs on it: the search rejected (that rejection is
caught inside the loop), returned no items, or found a track (together
with the `Math.random` draw used for the insertion offset). -/
inductive SmartRecOutcome where
  | searchFail
  | notFound
  | found (track : Track) (rand : Nat)
deriving DecidableEq

/-- The oracles for every effect the player consumes: stream resolution
(`api.getStreamUrl`, `none` = rejected), playback start success,
the `Math.random`-driven shuffles, `db.getHistory`, the smart-shuffle
recommendation flow, `db.getFavorites`, and
`api.getRecommendedTracksForPlaylist` (a function of the seed list). -/
structure Env where
  resolve : Nat → Option String := fun _ => none
  playOk : Nat → Bool := fun _ => true
  shuffleFn : List Track → List Track := id
  history : Except String (List Track) := .ok []
  recs : Except String (List SmartRecOutcome) := .ok []
  likes : Except String (List Track) := .ok []
  likeShuffle : List Track → List Track := id
  recommendedTracksFor : List Track → Except String (List Track) := fun _ => .ok []

deriving instance DecidableEq for Except

namespace Player

/-- `getCurrentQueue()`: the active queue view. -/
def getCurrentQueue (s : Player) : List Track :=
  if s.shuffleActive then s.shuffledQueue else s.queue

/-- The resolution loop of `preloadNextTracks`: for each candidate, skip it
when already cached or local, otherwise resolve its stream URL and cache
it (a rejected resolution is swallowed).  Run to completion, i.e. without
an abort arriving mid-loop: in the sequential traces considered here every
preload finishes before the next operation starts. -/
def preloadFetch (resolve : Nat → Option String) :
    List Track → List (Nat × String) → List (Nat × String)
  | [], cache => cache
  | t :: rest, cache =>
    if cacheHas cache t.id then preloadFetch resolve rest cache
    else if t.isLocal then preloadFetch resolve rest cache
    else
      match resolve t.id with
      | some url => preloadFetch resolve rest (cacheSet cache t.id url)
      | none => preloadFetch resolve rest cache

/-- `preloadNextTracks()`: gather the tracks at `currentQueueIndex + 1` and
`currentQueueIndex + 2` of the active queue (those below the length) and
run the resolution loop over them. -/
def preloadNextTracks (resolve : Nat → Option String) (s : Player) : Player :=
  let currentQueue := s.getCurrentQueue
  let tracksToPreload := ([1, 2] : List Int).filterMap (fun i =>
    if s.currentQueueIndex + i < (currentQueue.length : Int) then
      jsIndex currentQueue (s.currentQueueIndex + i)
    else none)
  { s with preloadCache := preloadFetch resolve tracksToPreload s.preloadCache }

/-- `playTrackFromQueue()`: a no-op when `currentQueueIndex` is outside the
active queue; otherwise record the track as current and, when resolution
and playback start succeed, preload the next tracks.  The UI updates,
replay-gain application and persistence write are side effects outside
this state; a playback error is caught inside the method (it only skips
the preload). -/
def playTrackFromQueue (env : Env) (s : Player) : Player :=
  match jsIndex s.getCurrentQueue s.currentQueueIndex with
  | none => s
  | some track =>
    let s1 := { s with currentTrack := some track }
    if env.playOk track.id then s1.preloadNextTracks env.resolve else s1

/-- `playAtIndex(index)`: play at the given position of the active queue when
it is in range, otherwise do nothing. -/
def playAtIndex (env : Env) (index : Int) (s : Player) : Player :=
  let currentQueue := s.getCurrentQueue
  if 0 ≤ index ∧ index < (currentQueue.length : Int) then
    ({ s with currentQueueIndex := index }).playTrackFromQueue env
  else s

/-- What `playPrev()` did to the audio element, alongside the state it
returns. -/
inductive PrevEffect where
  | seekToZero
  | movedToPrev
  | didNothing
deriving DecidableEq

/-- `playPrev()`: past 3 seconds of playback it rewinds the audio to 0 and
leaves the queue state alone; at 3 seconds or less it steps to the
previous track when one exists. -/
def playPrev (env : Env) (currentTime : ℚ) (s : Player) : Player × PrevEffect :=
  if currentTime > 3 then (s, .seekToZero)
  else if s.currentQueueIndex > 0 then
    (({ s with currentQueueIndex := s.currentQueueIndex - 1 }).playTrackFromQueue env,
     .movedToPrev)
  else (s, .didNothing)

/-- `playNext()`: with repeat-one the same track restarts (no state change
here); otherwise a near-end autoqueue trigger fires the recommendation
fetch (an un-awaited call whose synchronous prefix sets
`autoqueueLoading`; its asynchronous completion is
`fetchAutoqueueRecommendations` below, run as a later step of a trace),
then the index advances, wraps under repeat-all, or stays put. -/
def playNext (env : Env) (s : Player) : Player :=
  let currentQueue := s.getCurrentQueue
  let isLastTrack := s.currentQueueIndex ≥ (currentQueue.length : Int) - 1
  let isNearEnd := s.currentQueueIndex ≥ (currentQueue.length : Int) - 3
  if s.repeatMode = REPEAT_MODE_ONE then s
  else
    let s1 :=
      if s.autoqueueEnabled ∧ isNearEnd ∧ ¬s.autoqueueLoading then
        { s with autoqueueLoading := true }
      else s
    if ¬isLastTrack then
      ({ s1 with currentQueueIndex := s1.currentQueueIndex + 1 }).playTrackFromQueue env
    else if s.repeatMode = REPEAT_MODE_ALL then
      ({ s1 with currentQueueIndex := 0 }).playTrackFromQueue env
    else s1

/-- The injection loop of `enableSmartShuffle`: each found, non-duplicate
recommendation is flagged `isRecommendation` and spliced into
`shuffledQueue` at `currentQueueIndex + insertOffset + addedCount` with
`insertOffset = Math.floor(Math.random() * 10) + 1 ∈ [1, 10]`, or pushed
at the end when that position is past the length.  Duplicates (id already
among the context tracks or equal to the current track) are skipped, as
are failed and empty searches. -/
def smartInjectLoop (cur : Int) (contextIds : List Nat) (currentTrackId : Option Nat) :
    List SmartRecOutcome → List Track → Nat → List Track
  | [], sq, _ => sq
  | .searchFail :: rest, sq, added =>
    smartInjectLoop cur contextIds currentTrackId rest sq added
  | .notFound :: rest, sq, added =>
    smartInjectLoop cur contextIds currentTrackId rest sq added
  | .found track rand :: rest, sq, added =>
    let isDuplicate := contextIds.contains track.id ∨ currentTrackId = some track.id
    if isDuplicate then smartInjectLoop cur contextIds currentTrackId rest sq added
    else
      let markedTrack := { track with isRecommendation := true }
      let insertOffset : Int := (rand % 10 : Nat) + 1
      let insertIndex : Int := cur + insertOffset + (added : Int)
      let sq1 :=
        if insertIndex < (sq.length : Int) then
          insertAt sq (jsSpliceStart sq.length insertIndex) markedTrack
        else sq ++ [markedTrack]
      smartInjectLoop cur contextIds currentTrackId rest sq1 (added + 1)

/-- `enableSmartShuffle()`: a rejected `db.getHistory` or
`groqService.getRecommendations` propagates (nothing has been mutated at
that point — the per-recommendation search failures later on are caught
inside the loop); with no context or no recommendations it returns
early; otherwise the injection loop runs over `shuffledQueue`. -/
def enableSmartShuffle (env : Env) (s : Player) : Except String Player :=
  match env.history with
  | .error e => .error e
  | .ok history =>
    let lastPlayed := history.take 10
    let currentQueue := if 0 < s.shuffledQueue.length then s.shuffledQueue else s.queue
    let contextTracks :=
      jsSlice currentQueue (s.currentQueueIndex + 1) (s.currentQueueIndex + 21)
    if lastPlayed.length = 0 ∧ contextTracks.length = 0 then .ok s
    else
      match env.recs with
      | .error e => .error e
      | .ok recommendations =>
        if recommendations.length = 0 then .ok s
        else
          let injected :=
            smartInjectLoop s.currentQueueIndex (contextTracks.map (fun t => t.id))
              (s.currentTrack.map (fun t => t.id)) recommendations s.shuffledQueue 0
          .ok { s with shuffledQueue := injected }

/-- The OFF → SHUFFLE branch of `toggleShuffle()`: snapshot the base queue,
remove the currently playing track (when the index points at one) from a
copy, randomize the rest, and prepend the playing track; the index
becomes 0 when a track was playing and −1 otherwise. -/
def toggleShuffleOffToShuffle (env : Env) (s : Player) : Player :=
  let s1 := { s with shuffleActive := true, smartShuffleActive := false,
                     originalQueueBeforeShuffle := s.queue }
  let currentTrack := jsIndex s.queue s.currentQueueIndex
  let tracksToShuffle :=
    match currentTrack with
    | some _ =>
      if 0 ≤ s.currentQueueIndex then
        removeAt s.queue (jsSpliceStart s.queue.length s.currentQueueIndex)
      else s.queue
    | none => s.queue
  let shuffled := env.shuffleFn tracksToShuffle
  match currentTrack with
  | some t => { s1 with shuffledQueue := t :: shuffled, currentQueueIndex := 0 }
  | none => { s1 with shuffledQueue := shuffled, currentQueueIndex := -1 }

/-- The SHUFFLE → SMART SHUFFLE branch of `toggleShuffle()`: set the smart
flag and run `enableSmartShuffle`; its rejection is caught here, logged,
shown as a notification, and answered by clearing both flags (back to
OFF).  The rejection is not re-thrown. -/
def toggleShuffleShuffleToSmart (env : Env) (s : Player) : Player :=
  let s1 := { s with smartShuffleActive := true }
  match s1.enableSmartShuffle env with
  | .ok s2 => s2
  | .error _ => { s1 with smartShuffleActive := false, shuffleActive := false }

/-- The SMART → OFF branch of `toggleShuffle()`: restore the base queue from
the snapshot and relocate the index to the first id match of the track
the shuffled queue was playing (−1 when the index pointed at nothing or
the id is gone). -/
def toggleShuffleSmartToOff (s : Player) : Player :=
  let s1 := { s with shuffleActive := false, smartShuffleActive := false }
  let currentTrack := jsIndex s.shuffledQueue s.currentQueueIndex
  let newQueue := s.originalQueueBeforeShuffle
  let newIndex : Int :=
    match currentTrack with
    | some t => jsFindIndexTrack newQueue t.id
    | none => -1
  { s1 with queue := newQueue, currentQueueIndex := newIndex }

/-- `toggleShuffle()`: dispatch on the flags, then clear the preload cache
and preload afresh (the persistence write is a side effect).  The method
never rejects — the one awaited call that can fail is wrapped in the
catch of the middle branch — so the result is always `.ok`. -/
def toggleShuffle (env : Env) (s : Player) : Except String Player :=
  let s1 :=
    if ¬s.shuffleActive ∧ ¬s.smartShuffleActive then
      s.toggleShuffleOffToShuffle env
    else if s.shuffleActive ∧ ¬s.smartShuffleActive then
      s.toggleShuffleShuffleToSmart env
    else
      s.toggleShuffleSmartToOff
  .ok (({ s1 with preloadCache := [] }).preloadNextTracks env.resolve)

/-- `setQueue(tracks, startIndex, autoqueue)`: replace the base queue, set
the index, drop both shuffle flags, reset the autoqueue state (seeding
with the first track when autoqueue is on), and clear the preload cache.
The recommendation fetch it fires for a single-track autoqueue start is
un-awaited; it is `fetchAutoqueueRecommendations`, run as a later step of
a trace. -/
def setQueue (tracks : List Track) (startIndex : Int) (autoqueue : Bool) (s : Player) :
    Player :=
  { s with queue := tracks, currentQueueIndex := startIndex,
           shuffleActive := false, smartShuffleActive := false,
           autoqueueEnabled := autoqueue, autoqueueLoading := false,
           autoqueueSeeds :=
             if autoqueue then
               match tracks with
               | t :: _ => [t]
               | [] => []
             else [],
           preloadCache := [] }

/-- The seed-accumulation step of `fetchAutoqueueRecommendations`: push each
candidate whose id is not yet among the seeds. -/
def addUniqueSeeds (acc : List Track) : List Track → List Track
  | [] => acc
  | t :: rest =>
    if acc.any (fun u => u.id == t.id) then addUniqueSeeds acc rest
    else addUniqueSeeds (acc ++ [t]) rest

/-- `fetchAutoqueueRecommendations()`: bail out when already loading or
disabled; build the seed list from the current track, the stored seeds,
up to 5 history tracks and up to 3 randomly chosen liked tracks
(history and likes rejections are caught and skipped); ask the API for
recommendations (a rejection is caught and swallowed); filter out every
track whose id is already in the active queue; push the survivors,
flagged `isAutoqueue`, onto the base queue; when any were added, re-seed
with the current track followed by the first 3 of them; preload.  The
`finally` clears `autoqueueLoading` on every path. -/
def fetchAutoqueueRecommendations (env : Env) (s : Player) : Player :=
  if s.autoqueueLoading ∨ ¬s.autoqueueEnabled then s
  else
    let seedTracks0 :=
      match s.currentTrack with
      | some t => [t]
      | none => []
    let seedTracks1 := addUniqueSeeds seedTracks0 s.autoqueueSeeds
    let seedTracks2 :=
      match env.history with
      | .ok h => addUniqueSeeds seedTracks1 (h.take 5)
      | .error _ => seedTracks1
    let seedTracks3 :=
      match env.likes with
      | .ok likes => addUniqueSeeds seedTracks2 ((env.likeShuffle likes).take 3)
      | .error _ => seedTracks2
    match env.recommendedTracksFor seedTracks3 with
    | .error _ => { s with autoqueueLoading := false }
    | .ok recommendations =>
      if recommendations.length = 0 then { s with autoqueueLoading := false }
      else
        let currentQueue := s.getCurrentQueue
        let existingIds := currentQueue.map (fun t => t.id)
        let newTracks :=
          (recommendations.filter (fun t => !(existingIds.contains t.id))).map
            (fun t => { t with isAutoqueue := true })
        let s1 := { s with queue := s.queue ++ newTracks }
        let s2 :=
          if 0 < newTracks.length then
            { s1 with autoqueueSeeds :=
              (match s.currentTrack with
               | some c => [c]
               | none => []) ++ newTracks.take 3 }
          else s1
        ({ s2 with autoqueueLoading := false }).preloadNextTracks env.resolve

/-- `addToQueue(track)`: push onto the base queue; when nothing is current
(`currentTrack` null or index −1) point the index at the last base-queue
slot and play it. -/
def addToQueue (env : Env) (track : Track) (s : Player) : Player :=
  let s1 := { s with queue := s.queue ++ [track] }
  if s1.currentTrack.isNone ∨ s1.currentQueueIndex = -1 then
    ({ s1 with currentQueueIndex := (s1.queue.length : Int) - 1 }).playTrackFromQueue env
  else s1

/-- `addNextToQueue(track)`: splice into the active queue right after the
index; under shuffle the track is additionally pushed onto the snapshot
list; then preload. -/
def addNextToQueue (env : Env) (track : Track) (s : Player) : Player :=
  let insertIndex := s.currentQueueIndex + 1
  let s1 :=
    if s.shuffleActive then
      { s with shuffledQueue :=
                 insertAt s.shuffledQueue
                   (jsSpliceStart s.shuffledQueue.length insertIndex) track,
               originalQueueBeforeShuffle := s.originalQueueBeforeShuffle ++ [track] }
    else
      { s with queue :=
                 insertAt s.queue (jsSpliceStart s.queue.length insertIndex) track }
  s1.preloadNextTracks env.resolve

/-- `removeFromQueue(index)`: decrement the index when the removal precedes
it, splice the track out of the active queue, and under shuffle also
remove the first id match from the snapshot list; then preload.  (When
the splice removes nothing and shuffle is on, the source dereferences
`undefined` and throws; that state is modelled as leaving the snapshot
alone and is outside every hypothesis used below.) -/
def removeFromQueue (env : Env) (index : Int) (s : Player) : Player :=
  let currentQueue := s.getCurrentQueue
  let newIndex :=
    if index < s.currentQueueIndex then s.currentQueueIndex - 1
    else s.currentQueueIndex
  let start := jsSpliceStart currentQueue.length index
  let removedTrack := currentQueue.get? start
  let newActive := removeAt currentQueue start
  let s1 :=
    if s.shuffleActive then
      let s2 := { s with shuffledQueue := newActive, currentQueueIndex := newIndex }
      match removedTrack with
      | some rt =>
        match s.originalQueueBeforeShuffle.findIdx? (fun t => t.id == rt.id) with
        | some oi =>
          { s2 with originalQueueBeforeShuffle :=
              removeAt s.originalQueueBeforeShuffle oi }
        | none => s2
      | none => s2
    else { s with queue := newActive, currentQueueIndex := newIndex }
  s1.preloadNextTracks env.resolve

/-- `clearQueue()`: empty every queue form, reset the index, clear the
preload cache. -/
def clearQueue (s : Player) : Player :=
  { s with queue := [], shuffledQueue := [], originalQueueBeforeShuffle := [],
           currentQueueIndex := -1, preloadCache := [] }

/-- `moveInQueue(fromIndex, toIndex)`: a no-op unless both positions are in
range; otherwise splice the track out and back in, and shift the index
by ±1 when the move crosses it, or carry it along when the moved track
is the current one. -/
def moveInQueue (fromIndex toIndex : Int) (s : Player) : Player :=
  let currentQueue := s.getCurrentQueue
  if fromIndex < 0 ∨ (currentQueue.length : Int) ≤ fromIndex then s
  else if toIndex < 0 ∨ (currentQueue.length : Int) ≤ toIndex then s
  else
    match currentQueue.get? fromIndex.toNat with
    | none => s
    | some track =>
      let after := insertAt (removeAt currentQueue fromIndex.toNat) toIndex.toNat track
      let newIndex :=
        if s.currentQueueIndex = fromIndex then toIndex
        else if fromIndex < s.currentQueueIndex ∧ s.currentQueueIndex ≤ toIndex then
          s.currentQueueIndex - 1
        else if s.currentQueueIndex < fromIndex ∧ toIndex ≤ s.currentQueueIndex then
          s.currentQueueIndex + 1
        else s.currentQueueIndex
      if s.shuffleActive then
        { s with shuffledQueue := after, currentQueueIndex := newIndex }
      else
        { s with queue := after, currentQueueIndex := newIndex }

/-- `getNextTrack()`: the upcoming track, wrapping to the head under
repeat-all. -/
def getNextTrack (s : Player) : Option Track :=
  let currentQueue := s.getCurrentQueue
  if s.currentQueueIndex = -1 ∨ currentQueue.length = 0 then none
  else
    let nextIndex := s.currentQueueIndex + 1
    if nextIndex < (currentQueue.length : Int) then jsIndex currentQueue nextIndex
    else if s.repeatMode = REPEAT_MODE_ALL then currentQueue.head?
    else none

/-- The bounds invariant of the spec: the index sits in
`[-1, activeQueue.length - 1]`. -/
def indexInBounds (s : Player) : Prop :=
  -1 ≤ s.currentQueueIndex ∧ s.currentQueueIndex ≤ (s.getCurrentQueue.length : Int) - 1

instance (s : Player) : Decidable s.indexInBounds := by
  unfold indexInBounds; infer_instance

end Player

/-- The replay-gain mode from `replayGainSettings.getMode()`, one of the
strings `off`, `track`, `album`. -/
inductive RgMode where
  | off
  | track
  | album
deriving DecidableEq

/-- The `currentRgValues` record the player keeps from the resolved track
metadata; every field may be `undefined`. -/
structure RgValues where
  trackReplayGain : Option ℝ := none
  trackPeakAmplitude : Option ℝ := none
  albumReplayGain : Option ℝ := none
  albumPeakAmplitude : Option ℝ := none

/-- JS `x || 1.0` on a possibly-undefined peak: `undefined` and `0` are
falsy and give `1.0`. -/
noncomputable def peakOrOne (x : Option ℝ) : ℝ :=
  match x with
  | none => 1
  | some p => if p = 0 then 1 else p

/-- `applyReplayGain()` as a function of the settings
(`replayGainSettings.getMode()` and `.getPreamp()`), the stored
`currentRgValues` (none for local files) and `userVolume`, returning the
volume written to the audio element: pick the album gain/peak when the
mode is `album` and the album gain is defined, else the track gain/peak
when defined, else 0 dB; add the pre-amp (only when the mode is not `off`
and metadata is present); convert `10^(dB/20)`; cap the scale at
`1/peak` when `scale * peak > 1`; clamp `userVolume * scale` into
`[0, 1]`. -/
noncomputable def applyReplayGain (mode : RgMode) (preamp : ℝ)
    (currentRgValues : Option RgValues) (userVolume : ℝ) : ℝ :=
  let gainPeak : ℝ × ℝ :=
    match mode, currentRgValues with
    | .off, _ => (0, 1)
    | _, none => (0, 1)
    | m, some rg =>
      let base : ℝ × ℝ :=
        if m = RgMode.album ∧ rg.albumReplayGain.isSome then
          (rg.albumReplayGain.getD 0, peakOrOne rg.albumPeakAmplitude)
        else if rg.trackReplayGain.isSome then
          (rg.trackReplayGain.getD 0, peakOrOne rg.trackPeakAmplitude)
        else (0, 1)
      (base.1 + preamp, base.2)
  let scale0 := (10 : ℝ) ^ (gainPeak.1 / 20)
  let scale := if 1 < scale0 * gainPeak.2 then 1 / gainPeak.2 else scale0
  let effectiveVolume := userVolume * scale
  max 0 (min 1 effectiveVolume)

/-! ### Concrete fixtures used by the witness and counterexample theorems -/

/-- A plain track with id 1. -/
def trackA : Track := { id := 1 }

/-- A plain track with id 2. -/
def trackB : Track := { id := 2 }

/-- A plain track with id 3. -/
def trackC : Track := { id := 3 }

/-- A plain track with id 4. -/
def trackD : Track := { id := 4 }

/-- An environment whose stream resolution always succeeds. -/
def envResolve : Env := { resolve := fun _ => some "u" }

/-- An environment in which the Groq recommendation call rejects while the
history read succeeds with one entry (so `enableSmartShuffle` reaches the
recommendation call and propagates its rejection). -/
def envFailRec : Env :=
  { resolve := fun _ => some "u", history := .ok [trackA], recs := .error "boom" }

/-- An environment for the shuffle round trip: reversal as the permutation,
one history entry, and one recommendation that is found by search. -/
def envSmartOk : Env :=
  { resolve := fun _ => some "u", shuffleFn := List.reverse,
    history := .ok [trackA],
    recs := .ok [SmartRecOutcome.found { id := 9 } 0] }

/-- A two-track state playing the second track. -/
def sTwoSecond : Player :=
  { queue := [trackA, trackB], currentQueueIndex := 1, currentTrack := some trackB }

/-- A one-track state playing that track. -/
def sOne : Player :=
  { queue := [trackA], currentQueueIndex := 0, currentTrack := some trackA }

/-- A four-track state playing the first track, with an empty cache. -/
def sFour : Player :=
  { queue := [trackA, trackB, trackC, trackD], currentQueueIndex := 0,
    currentTrack := some trackA }

/-- A shuffle-active state whose queues are empty and nothing is loaded. -/
def sShuffleEmpty : Player := { shuffleActive := true }

/-- A shuffle-active two-track state playing the first track (as the
OFF → SHUFFLE transition would leave it with the identity permutation). -/
def sShuffleTwo : Player :=
  { queue := [trackA, trackB], shuffledQueue := [trackA, trackB],
    originalQueueBeforeShuffle := [trackA, trackB],
    currentQueueIndex := 0, shuffleActive := true, currentTrack := some trackA }

/-- A three-track state playing the middle track, shuffle off. -/
def sThreeMid : Player :=
  { queue := [trackA, trackB, trackC], currentQueueIndex := 1,
    currentTrack := some trackB }

/-- A smart-shuffle state whose playing track id is absent from the
snapshot list. -/
def sSmartOrphan : Player :=
  { queue := [trackD], shuffledQueue := [trackD],
    originalQueueBeforeShuffle := [trackA, trackB],
    currentQueueIndex := 0, shuffleActive := true, smartShuffleActive := true,
    currentTrack := some trackD }

/-- An autoqueue-enabled two-track state playing the first track, with the
recommendation oracle returning one duplicate and two new tracks. -/
def sAutoq : Player :=
  { queue := [trackA, trackB], currentQueueIndex := 0, currentTrack := some trackA,
    autoqueueEnabled := true, autoqueueSeeds := [trackB] }

/-- The environment for the autoqueue witness: recommendations are
`[trackA, id 7, id 8]`, of which `trackA` is already queued. -/
def envAutoq : Env :=
  { resolve := fun _ => some "u",
    recommendedTracksFor := fun _ => .ok [trackA, { id := 7 }, { id := 8 }] }

/-! ### Supporting lemmas about the list helpers -/

theorem length_insertAt {α : Type u} (l : List α) (n : Nat) (x : α) :
    (insertAt l n x).length = l.length + 1 := by
  simp [insertAt]; omega

theorem length_removeAt {α : Type u} (l : List α) (n : Nat) (h : n < l.length) :
    (removeAt l n).length + 1 = l.length := by
  simp [removeAt]; omega

theorem get?_insertAt_of_lt {α : Type u} (l : List α) (m n : Nat) (x : α)
    (h1 : n < m) (h2 : n < l.length) : (insertAt l m x).get? n = l.get? n := by
  unfold insertAt
  rw [List.get?_append (by simp [List.length_take]; omega), List.get?_take h1]

theorem perm_cons_removeAt {α : Type u} (l : List α) (n : Nat) (x : α)
    (h : l.get? n = some x) : l.Perm (x :: removeAt l n) := by
  induction l generalizing n with
  | nil => simp at h
  | cons a as ih =>
    cases n with
    | zero =>
      have hax : a = x := by simpa using h
      subst hax
      simp [removeAt]
    | succ n =>
      have h2 : as.get? n = some x := h
      have step := ih n h2
      have hrw : removeAt (a :: as) (n + 1) = a :: removeAt as n := by
        simp [removeAt]
      rw [hrw]
      exact (step.cons a).trans (List.Perm.swap x a (removeAt as n))

theorem jsFindIndexTrack_bounds (l : List Track) (tid : Nat) :
    jsFindIndexTrack l tid = -1 ∨
      (0 ≤ jsFindIndexTrack l tid ∧ jsFindIndexTrack l tid < (l.length : Int)) := by
  induction l with
  | nil => simp [jsFindIndexTrack]
  | cons t rest ih =>
    by_cases h : t.id = tid
    · right
      simp [jsFindIndexTrack, h]
    · rcases ih with h1 | h1
      · left
        simp [jsFindIndexTrack, h, h1]
      · right
        have hne : ¬ jsFindIndexTrack rest tid = -1 := by omega
        simp only [jsFindIndexTrack, if_neg h, if_neg hne]
        constructor
        · omega
        · simp only [List.length_cons]
          push_cast
          omega

theorem jsFindIndexTrack_found (l : List Track) (tid : Nat)
    (h : 0 ≤ jsFindIndexTrack l tid) :
    ∃ u, l.get? (jsFindIndexTrack l tid).toNat = some u ∧ u.id = tid := by
  induction l with
  | nil => simp [jsFindIndexTrack] at h
  | cons t rest ih =>
    by_cases ht : t.id = tid
    · exact ⟨t, by simp [jsFindIndexTrack, ht], ht⟩
    · by_cases hr : jsFindIndexTrack rest tid = -1
      · simp [jsFindIndexTrack, ht, hr] at h
      · have hge : 0 ≤ jsFindIndexTrack rest tid := by
          rcases jsFindIndexTrack_bounds rest tid with h1 | h1
          · exact absurd h1 hr
          · exact h1.1
        obtain ⟨u, hu, hid⟩ := ih hge
        refine ⟨u, ?_, hid⟩
        simp only [jsFindIndexTrack, if_neg ht, if_neg hr]
        have : (jsFindIndexTrack rest tid + 1).toNat =
            (jsFindIndexTrack rest tid).toNat + 1 := by omega
        rw [this]
        simpa using hu

theorem jsFindIndexTrack_eq_neg_one (l : List Track) (tid : Nat)
    (h : ∀ u ∈ l, u.id ≠ tid) : jsFindIndexTrack l tid = -1 := by
  induction l with
  | nil => simp [jsFindIndexTrack]
  | cons t rest ih =>
    have ht : t.id ≠ tid := h t (by simp)
    have hr : jsFindIndexTrack rest tid = -1 :=
      ih (fun u hu => h u (by simp [hu]))
    simp [jsFindIndexTrack, ht, hr]

theorem jsFindIndexTrack_neg_one_not_mem (l : List Track) (tid : Nat)
    (h : jsFindIndexTrack l tid = -1) : ∀ u ∈ l, u.id ≠ tid := by
  induction l with
  | nil => simp
  | cons t rest ih =>
    by_cases ht : t.id = tid
    · simp [jsFindIndexTrack, ht] at h
    · by_cases hr : jsFindIndexTrack rest tid = -1
      · intro u hu
        rcases List.mem_cons.mp hu with rfl | hmem
        · exact ht
        · exact ih hr u hmem
      · exfalso
        have hge : 0 ≤ jsFindIndexTrack rest tid := by
          rcases jsFindIndexTrack_bounds rest tid with h2 | h2
          · exact absurd h2 hr
          · exact h2.1
        simp only [jsFindIndexTrack, if_neg ht, if_neg hr] at h
        omega

theorem jsFindIndexTrack_mem_nonneg (l : List Track) (t : Track) (h : t ∈ l) :
    0 ≤ jsFindIndexTrack l t.id := by
  rcases jsFindIndexTrack_bounds l t.id with h1 | h1
  · exact absurd rfl (jsFindIndexTrack_neg_one_not_mem l t.id h1 t h)
  · exact h1.1

namespace Player

theorem preloadFetch_length_le (resolve : Nat → Option String) (ts : List Track)
    (c : List (Nat × String)) :
    (preloadFetch resolve ts c).length ≤ c.length + ts.length := by
  induction ts generalizing c with
  | nil => simp [preloadFetch]
  | cons t rest ih =>
    simp only [preloadFetch, List.length_cons]
    split
    · have := ih c; omega
    · split
      · have := ih c; omega
      · split
        · rename_i url heq
          have := ih (cacheSet c t.id url)
          simp only [cacheSet, List.length_append, List.length_cons,
            List.length_nil] at this ⊢
          omega
        · have := ih c; omega

theorem smartInjectLoop_length_le (cur : Int) (ctx : List Nat) (cid : Option Nat)
    (outs : List SmartRecOutcome) (sq : List Track) (added : Nat) :
    sq.length ≤ (smartInjectLoop cur ctx cid outs sq added).length := by
  induction outs generalizing sq added with
  | nil => simp [smartInjectLoop]
  | cons o rest ih =>
    cases o with
    | searchFail => exact ih sq added
    | notFound => exact ih sq added
    | found track rand =>
      simp only [smartInjectLoop]
      split
      · exact ih sq added
      · split
        · have h1 := ih (insertAt sq (jsSpliceStart sq.length
            (cur + ((rand % 10 : Nat) + 1 : Int) + (added : Int)))
            { track with isRecommendation := true }) (added + 1)
          rw [length_insertAt] at h1
          omega
        · have h1 := ih (sq ++ [{ track with isRecommendation := true }]) (added + 1)
          simp at h1
          omega

theorem smartInjectLoop_get?_preserved (cur : Int) (ctx : List Nat) (cid : Option Nat)
    (outs : List SmartRecOutcome) (sq : List Track) (added : Nat)
    (hcur : 0 ≤ cur) (hlt : cur.toNat < sq.length) :
    (smartInjectLoop cur ctx cid outs sq added).get? cur.toNat = sq.get? cur.toNat := by
  induction outs generalizing sq added with
  | nil => simp [smartInjectLoop]
  | cons o rest ih =>
    cases o with
    | searchFail => exact ih sq added hlt
    | notFound => exact ih sq added hlt
    | found track rand =>
      simp only [smartInjectLoop]
      split
      · exact ih sq added hlt
      · split
        · rename_i hdup hins
          have hpos : jsSpliceStart sq.length
              (cur + ((rand % 10 : Nat) + 1 : Int) + (added : Int)) =
              (cur + ((rand % 10 : Nat) + 1 : Int) + (added : Int)).toNat := by
            unfold jsSpliceStart
            rw [if_neg (by omega)]
            omega
          have hgt : cur.toNat < (cur + ((rand % 10 : Nat) + 1 : Int) + (added : Int)).toNat := by
            omega
          have hlen : cur.toNat < (insertAt sq (jsSpliceStart sq.length
              (cur + ((rand % 10 : Nat) + 1 : Int) + (added : Int)))
              { track with isRecommendation := true }).length := by
            rw [length_insertAt]; omega
          rw [ih _ (added + 1) hlen]
          rw [hpos]
          exact get?_insertAt_of_lt sq _ _ _ hgt hlt
        · have hlen : cur.toNat < (sq ++ [{ track with isRecommendation := true }]).length := by
            simp; omega
          rw [ih _ (added + 1) hlen]
          exact List.get?_append hlt

/-! ### Frame lemmas: which fields each operation leaves alone -/

@[simp] theorem preloadNextTracks_queue (resolve : Nat → Option String) (s : Player) :
    (s.preloadNextTracks resolve).queue = s.queue := rfl

@[simp] theorem preloadNextTracks_shuffledQueue (resolve : Nat → Option String) (s : Player) :
    (s.preloadNextTracks resolve).shuffledQueue = s.shuffledQueue := rfl

@[simp] theorem preloadNextTracks_originalQueue (resolve : Nat → Option String) (s : Player) :
    (s.preloadNextTracks resolve).originalQueueBeforeShuffle =
      s.originalQueueBeforeShuffle := rfl

@[simp] theorem preloadNextTracks_currentQueueIndex (resolve : Nat → Option String)
    (s : Player) :
    (s.preloadNextTracks resolve).currentQueueIndex = s.currentQueueIndex := rfl

@[simp] theorem preloadNextTracks_shuffleActive (resolve : Nat → Option String) (s : Player) :
    (s.preloadNextTracks resolve).shuffleActive = s.shuffleActive := rfl

@[simp] theorem preloadNextTracks_smartShuffleActive (resolve : Nat → Option String)
    (s : Player) :
    (s.preloadNextTracks resolve).smartShuffleActive = s.smartShuffleActive := rfl

@[simp] theorem preloadNextTracks_currentTrack (resolve : Nat → Option String) (s : Player) :
    (s.preloadNextTracks resolve).currentTrack = s.currentTrack := rfl

@[simp] theorem preloadNextTracks_autoqueueEnabled (resolve : Nat → Option String)
    (s : Player) :
    (s.preloadNextTracks resolve).autoqueueEnabled = s.autoqueueEnabled := rfl

@[simp] theorem preloadNextTracks_autoqueueLoading (resolve : Nat → Option String)
    (s : Player) :
    (s.preloadNextTracks resolve).autoqueueLoading = s.autoqueueLoading := rfl

@[simp] theorem preloadNextTracks_autoqueueSeeds (resolve : Nat → Option String)
    (s : Player) :
    (s.preloadNextTracks resolve).autoqueueSeeds = s.autoqueueSeeds := rfl

@[simp] theorem playTrackFromQueue_queue (env : Env) (s : Player) :
    (s.playTrackFromQueue env).queue = s.queue := by
  unfold playTrackFromQueue
  split
  · rfl
  · split <;> rfl

@[simp] theorem playTrackFromQueue_shuffledQueue (env : Env) (s : Player) :
    (s.playTrackFromQueue env).shuffledQueue = s.shuffledQueue := by
  unfold playTrackFromQueue
  split
  · rfl
  · split <;> rfl

@[simp] theorem playTrackFromQueue_originalQueue (env : Env) (s : Player) :
    (s.playTrackFromQueue env).originalQueueBeforeShuffle =
      s.originalQueueBeforeShuffle := by
  unfold playTrackFromQueue
  split
  · rfl
  · split <;> rfl

@[simp] theorem playTrackFromQueue_currentQueueIndex (env : Env) (s : Player) :
    (s.playTrackFromQueue env).currentQueueIndex = s.currentQueueIndex := by
  unfold playTrackFromQueue
  split
  · rfl
  · split <;> rfl

@[simp] theorem playTrackFromQueue_shuffleActive (env : Env) (s : Player) :
    (s.playTrackFromQueue env).shuffleActive = s.shuffleActive := by
  unfold playTrackFromQueue
  split
  · rfl
  · split <;> rfl

@[simp] theorem playTrackFromQueue_smartShuffleActive (env : Env) (s : Player) :
    (s.playTrackFromQueue env).smartShuffleActive = s.smartShuffleActive := by
  unfold playTrackFromQueue
  split
  · rfl
  · split <;> rfl

@[simp] theorem playTrackFromQueue_autoqueueSeeds (env : Env) (s : Player) :
    (s.playTrackFromQueue env).autoqueueSeeds = s.autoqueueSeeds := by
  unfold playTrackFromQueue
  split
  · rfl
  · split <;> rfl

end Player

namespace Player

theorem playTrackFromQueue_currentTrack_of_get (env : Env) (s : Player) (t : Track)
    (h : jsIndex s.getCurrentQueue s.currentQueueIndex = some t) :
    (s.playTrackFromQueue env).currentTrack = some t := by
  unfold playTrackFromQueue
  rw [h]
  dsimp only
  split <;> simp

end Player

/-! ### Claim theorems -/

/-- C10: for every index outside `[0, activeQueue.length - 1]`,
`playAtIndex` is a no-op on the whole player state, and for a `fromIndex`
or `toIndex` outside that range `moveInQueue` is likewise a no-op. -/
theorem out_of_range_ops_are_noops (env : Env) (s : Player) (i j : Int) :
    ((i < 0 ∨ (s.getCurrentQueue.length : Int) ≤ i) → s.playAtIndex env i = s) ∧
    ((i < 0 ∨ (s.getCurrentQueue.length : Int) ≤ i ∨ j < 0 ∨
        (s.getCurrentQueue.length : Int) ≤ j) →
      s.moveInQueue i j = s) := by
  constructor
  · intro h
    simp only [Player.playAtIndex]
    rw [if_neg (by omega)]
  · intro h
    simp only [Player.moveInQueue]
    by_cases h1 : i < 0 ∨ (s.getCurrentQueue.length : Int) ≤ i
    · rw [if_pos h1]
    · have h2 : j < 0 ∨ (s.getCurrentQueue.length : Int) ≤ j := by tauto
      rw [if_neg h1, if_pos h2]

/-- Witness for C10 at a concrete state: index 5 and positions 5/7 are out
of range for a two-track queue. -/
theorem out_of_range_ops_are_noops_witness :
    sTwoSecond.playAtIndex envResolve 5 = sTwoSecond ∧
    sTwoSecond.moveInQueue 5 7 = sTwoSecond :=
  ⟨(out_of_range_ops_are_noops envResolve sTwoSecond 5 7).1 (by decide),
   (out_of_range_ops_are_noops envResolve sTwoSecond 5 7).2 (by decide)⟩

/-- C3 (amended): `playPrev` seeks to 0 and leaves `currentQueueIndex`
unchanged exactly when MORE than 3 seconds have elapsed
(`audio.currentTime > 3`); at 3 seconds or less it moves
`currentQueueIndex` to the previous track when one exists (and does
nothing otherwise).  The claim as stated has the threshold inverted. -/
theorem playPrev_threshold_behavior (env : Env) (currentTime : ℚ) (s : Player) :
    (3 < currentTime → s.playPrev env currentTime = (s, .seekToZero)) ∧
    (currentTime ≤ 3 → 0 < s.currentQueueIndex →
      (s.playPrev env currentTime).2 = .movedToPrev ∧
      (s.playPrev env currentTime).1.currentQueueIndex = s.currentQueueIndex - 1) ∧
    (currentTime ≤ 3 → s.currentQueueIndex ≤ 0 →
      s.playPrev env currentTime = (s, .didNothing)) := by
  refine ⟨?_, ?_, ?_⟩
  · intro h
    simp [Player.playPrev, h]
  · intro h hcur
    have hnot : ¬ (3 : ℚ) < currentTime := not_lt.mpr h
    simp [Player.playPrev, hnot, hcur]
  · intro h hcur
    have hnot : ¬ (3 : ℚ) < currentTime := not_lt.mpr h
    have hnot2 : ¬ 0 < s.currentQueueIndex := not_lt.mpr hcur
    simp [Player.playPrev, hnot, hnot2]

/-- Witness for C3: at 5 seconds `playPrev` only rewinds, and at 2 seconds
with the second track playing it steps back to index 0. -/
theorem playPrev_threshold_behavior_witness :
    sTwoSecond.playPrev envResolve 5 = (sTwoSecond, .seekToZero) ∧
    ((sTwoSecond.playPrev envResolve 2).2 = Player.PrevEffect.movedToPrev ∧
      (sTwoSecond.playPrev envResolve 2).1.currentQueueIndex = 0) :=
  ⟨(playPrev_threshold_behavior envResolve 5 sTwoSecond).1 (by norm_num),
   (playPrev_threshold_behavior envResolve 2 sTwoSecond).2.1 (by norm_num) (by decide)⟩

/-- Counterexample to C3 as stated: at `currentTime = 2 ≤ 3` the code does
NOT seek-and-keep-the-index; it moves `currentQueueIndex` from 1 to 0. -/
theorem playPrev_early_moves_index :
    (sTwoSecond.playPrev envResolve 2).2 = Player.PrevEffect.movedToPrev ∧
    (sTwoSecond.playPrev envResolve 2).1.currentQueueIndex = 0 ∧
    ¬ (sTwoSecond.playPrev envResolve 2).1.currentQueueIndex =
        sTwoSecond.currentQueueIndex := by
  refine ⟨?_, ?_, ?_⟩ <;> decide

/-- C7 (amended): `addToQueue` always appends to the BASE queue (not the
active/shuffled view); when shuffle is inactive and nothing is loaded
(`currentTrack` null or index −1) playback immediately starts at the
newly appended track; when something is loaded the rest of the state is
untouched. -/
theorem addToQueue_appends_to_base_queue (env : Env) (t : Track) (s : Player) :
    (s.addToQueue env t).queue = s.queue ++ [t] ∧
    (s.shuffleActive = false → (s.currentTrack = none ∨ s.currentQueueIndex = -1) →
      (s.addToQueue env t).currentQueueIndex = (s.queue.length : Int) ∧
      (s.addToQueue env t).currentTrack = some t) ∧
    (¬(s.currentTrack = none ∨ s.currentQueueIndex = -1) →
      s.addToQueue env t = { s with queue := s.queue ++ [t] }) := by
  refine ⟨?_, ?_, ?_⟩
  · simp only [Player.addToQueue]
    split
    · simp
    · rfl
  · intro hshuf hempty
    have hcond : (({ s with queue := s.queue ++ [t] } : Player).currentTrack.isNone = true) ∨
        ({ s with queue := s.queue ++ [t] } : Player).currentQueueIndex = -1 := by
      rcases hempty with h | h
      · left; simp [h]
      · right; simpa using h
    simp only [Player.addToQueue, if_pos hcond]
    constructor
    · rw [Player.playTrackFromQueue_currentQueueIndex]
      simp
    · apply Player.playTrackFromQueue_currentTrack_of_get
      simp only [Player.getCurrentQueue, hshuf]
      show jsIndex (s.queue ++ [t]) ((s.queue ++ [t]).length - 1 : Int) = some t
      unfold jsIndex
      rw [if_pos (by simp only [List.length_append, List.length_cons, List.length_nil]; omega)]
      have hlen : (((s.queue ++ [t]).length : Int) - 1).toNat = s.queue.length := by
        simp
      rw [hlen]
      exact List.get?_concat_length s.queue t
  · intro hfull
    have hcond : ¬ ((({ s with queue := s.queue ++ [t] } : Player).currentTrack.isNone = true) ∨
        ({ s with queue := s.queue ++ [t] } : Player).currentQueueIndex = -1) := by
      intro hc
      apply hfull
      rcases hc with h | h
      · left
        simpa [Option.isNone_iff_eq_none] using h
      · right
        simpa using h
    simp only [Player.addToQueue, if_neg hcond]

/-- Witness for C7: appending to an idle, shuffle-off empty state starts
playback of the appended track, and appending to a playing state only
grows the base queue. -/
theorem addToQueue_appends_to_base_queue_witness :
    (({ } : Player).addToQueue envResolve trackB).queue = [trackB] ∧
    ((({ } : Player).addToQueue envResolve trackB).currentQueueIndex = 0 ∧
      (({ } : Player).addToQueue envResolve trackB).currentTrack = some trackB) ∧
    sOne.addToQueue envResolve trackB = { sOne with queue := [trackA, trackB] } :=
  ⟨(addToQueue_appends_to_base_queue envResolve trackB { }).1,
   (addToQueue_appends_to_base_queue envResolve trackB { }).2.1 rfl (Or.inl rfl),
   (addToQueue_appends_to_base_queue envResolve trackB sOne).2.2 (by decide)⟩

/-- Counterexample to C7 as stated: with shuffle active, `addToQueue` does
not add the track to the end of the active queue (the shuffled view stays
empty while the base queue receives it), and although nothing was loaded
playback does not start. -/
theorem addToQueue_shuffle_not_appended_to_active :
    sShuffleEmpty.getCurrentQueue = [] ∧
    (sShuffleEmpty.addToQueue envResolve trackB).getCurrentQueue = [] ∧
    (sShuffleEmpty.addToQueue envResolve trackB).queue = [trackB] ∧
    (sShuffleEmpty.addToQueue envResolve trackB).currentTrack = none := by
  refine ⟨?_, ?_, ?_, ?_⟩ <;> decide

/-- C2 (amended): when the SHUFFLE → SMART_SHUFFLE transition fails with a
recommendation-service error, `toggleShuffle` rolls back fully to OFF
(both flags cleared; the queue lists and the index are not touched — the
error can only arise before any injection), but the failure is NOT
surfaced to the caller: the rejection is caught inside `toggleShuffle`
(logged and shown as a notification) and the call resolves normally. -/
theorem toggleShuffle_smart_failure_rolls_back (env : Env) (s : Player) (e : String)
    (hshuf : s.shuffleActive = true) (hsmart : s.smartShuffleActive = false)
    (hfail : ({ s with smartShuffleActive := true } : Player).enableSmartShuffle env =
      .error e) :
    ∃ s2, s.toggleShuffle env = .ok s2 ∧
      s2.shuffleActive = false ∧ s2.smartShuffleActive = false ∧
      s2.queue = s.queue ∧ s2.shuffledQueue = s.shuffledQueue ∧
      s2.originalQueueBeforeShuffle = s.originalQueueBeforeShuffle ∧
      s2.currentQueueIndex = s.currentQueueIndex ∧
      s2.currentTrack = s.currentTrack := by
  have hbranch : s.toggleShuffleShuffleToSmart env =
      { s with shuffleActive := false, smartShuffleActive := false } := by
    simp only [Player.toggleShuffleShuffleToSmart]
    rw [hfail]
  have cond1 : ¬(¬(s.shuffleActive = true) ∧ ¬(s.smartShuffleActive = true)) :=
    fun hc => hc.1 hshuf
  have cond2 : (s.shuffleActive = true) ∧ ¬(s.smartShuffleActive = true) :=
    ⟨hshuf, by simp [hsmart]⟩
  have htog : s.toggleShuffle env =
      .ok ((({ s with shuffleActive := false, smartShuffleActive := false,
                      preloadCache := [] } : Player)).preloadNextTracks env.resolve) := by
    unfold Player.toggleShuffle
    dsimp only
    rw [if_neg cond1, if_pos cond2, hbranch]
  refine ⟨_, htog, ?_, ?_, ?_, ?_, ?_, ?_, ?_⟩ <;> simp

/-- Witness for C2: concrete shuffle-active state and an environment whose
recommendation call rejects. -/
theorem toggleShuffle_smart_failure_rolls_back_witness :
    ∃ s2, sShuffleTwo.toggleShuffle envFailRec = .ok s2 ∧
      s2.shuffleActive = false ∧ s2.smartShuffleActive = false ∧
      s2.queue = sShuffleTwo.queue ∧ s2.shuffledQueue = sShuffleTwo.shuffledQueue ∧
      s2.originalQueueBeforeShuffle = sShuffleTwo.originalQueueBeforeShuffle ∧
      s2.currentQueueIndex = sShuffleTwo.currentQueueIndex ∧
      s2.currentTrack = sShuffleTwo.currentTrack :=
  toggleShuffle_smart_failure_rolls_back envFailRec sShuffleTwo "boom" rfl rfl (by decide)

/-- Counterexample to C2 as stated: at a concrete shuffle-active state with
a failing recommendation service, `toggleShuffle` resolves with `.ok`
(and the state is back to OFF, both flags false) — the rejection does not
propagate out to the caller, contradicting the surfacing half of the
claim. -/
theorem toggleShuffle_smart_failure_is_swallowed :
    (sShuffleTwo.toggleShuffle envFailRec).isOk = true ∧
    (sShuffleTwo.toggleShuffle envFailRec).toOption.map Player.shuffleActive =
      some false ∧
    (sShuffleTwo.toggleShuffle envFailRec).toOption.map Player.smartShuffleActive =
      some false := by
  refine ⟨?_, ?_, ?_⟩ <;> decide

/-- C9: the loudness gain computation.  (a) In ALBUM mode with a defined
album gain, the applied volume is `clamp(userVolume * scale, 0, 1)` where
`scale = 10^((albumGain+preamp)/20)` capped at `1/peak` when
`scale * peak > 1`.  (b) Otherwise (mode not OFF, album gain not chosen)
the track gain and track peak are used the same way.  (c) For
`trackGainDb = -6`, `preamp = 2`, `peak = 0.9`, `userVolume = 1` there is
no peak clamping and the effective volume is within `0.001` of `0.631`. -/
theorem applyReplayGain_formula_and_example :
    (∀ (preamp userVolume : ℝ) (rg : RgValues) (g : ℝ),
      rg.albumReplayGain = some g →
      applyReplayGain .album preamp (some rg) userVolume =
        max 0 (min 1 (userVolume *
          (if 1 < (10:ℝ) ^ ((g + preamp) / 20) * peakOrOne rg.albumPeakAmplitude then
            1 / peakOrOne rg.albumPeakAmplitude
          else (10:ℝ) ^ ((g + preamp) / 20))))) ∧
    (∀ (m : RgMode) (preamp userVolume : ℝ) (rg : RgValues) (g : ℝ),
      m ≠ .off → (m = .album → rg.albumReplayGain = none) →
      rg.trackReplayGain = some g →
      applyReplayGain m preamp (some rg) userVolume =
        max 0 (min 1 (userVolume *
          (if 1 < (10:ℝ) ^ ((g + preamp) / 20) * peakOrOne rg.trackPeakAmplitude then
            1 / peakOrOne rg.trackPeakAmplitude
          else (10:ℝ) ^ ((g + preamp) / 20))))) ∧
    (¬ (1:ℝ) < (10:ℝ) ^ (((-6:ℝ) + 2) / 20) * (9 / 10) ∧
      |applyReplayGain .track 2
          (some { trackReplayGain := some (-6), trackPeakAmplitude := some (9 / 10) }) 1
        - 631 / 1000| < 1 / 1000) := by
  have h10 : (0:ℝ) ≤ 10 := by norm_num
  have partB : ∀ (m : RgMode) (preamp userVolume : ℝ) (rg : RgValues) (g : ℝ),
      m ≠ .off → (m = .album → rg.albumReplayGain = none) →
      rg.trackReplayGain = some g →
      applyReplayGain m preamp (some rg) userVolume =
        max 0 (min 1 (userVolume *
          (if 1 < (10:ℝ) ^ ((g + preamp) / 20) * peakOrOne rg.trackPeakAmplitude then
            1 / peakOrOne rg.trackPeakAmplitude
          else (10:ℝ) ^ ((g + preamp) / 20)))) := by
    intro m preamp uv rg g hoff halb h
    cases m with
    | off => exact absurd rfl hoff
    | track => simp [applyReplayGain, h]
    | album =>
      have hnone : rg.albumReplayGain = none := halb rfl
      simp [applyReplayGain, h, hnone]
  -- bounds on the fifth root of ten and its inverse
  have hz0 : (0:ℝ) < (10:ℝ) ^ ((1:ℝ)/5) := Real.rpow_pos_of_pos (by norm_num) _
  have h5 : ((10:ℝ) ^ ((1:ℝ)/5)) ^ (5:ℕ) = 10 := by
    rw [← Real.rpow_natCast ((10:ℝ) ^ ((1:ℝ)/5)) 5, ← Real.rpow_mul h10]
    norm_num
  have hlo : (1.5848:ℝ) < (10:ℝ) ^ ((1:ℝ)/5) := by
    apply lt_of_pow_lt_pow_left 5 hz0.le
    rw [h5]; norm_num
  have hhi : (10:ℝ) ^ ((1:ℝ)/5) < 1.586 := by
    apply lt_of_pow_lt_pow_left 5 (by norm_num)
    rw [h5]; norm_num
  have hneg : (10:ℝ) ^ (((-6:ℝ) + 2) / 20) = ((10:ℝ) ^ ((1:ℝ)/5))⁻¹ := by
    have hexp : ((-6:ℝ) + 2) / 20 = -((1:ℝ)/5) := by norm_num
    rw [hexp, Real.rpow_neg h10]
  have hub : (10:ℝ) ^ (((-6:ℝ) + 2) / 20) < 0.631 := by
    rw [hneg]
    calc ((10:ℝ) ^ ((1:ℝ)/5))⁻¹ < (1.5848:ℝ)⁻¹ := inv_lt_inv_of_lt (by norm_num) hlo
      _ < 0.631 := by norm_num
  have hlb : (0.6305:ℝ) < (10:ℝ) ^ (((-6:ℝ) + 2) / 20) := by
    rw [hneg]
    calc (0.6305:ℝ) < (1.586:ℝ)⁻¹ := by norm_num
      _ < ((10:ℝ) ^ ((1:ℝ)/5))⁻¹ := inv_lt_inv_of_lt hz0 hhi
  have hpos : (0:ℝ) < (10:ℝ) ^ (((-6:ℝ) + 2) / 20) :=
    Real.rpow_pos_of_pos (by norm_num) _
  have hnoclamp : ¬ (1:ℝ) < (10:ℝ) ^ (((-6:ℝ) + 2) / 20) * (9 / 10) := by
    push_neg
    nlinarith [hub]
  refine ⟨?_, partB, hnoclamp, ?_⟩
  · intro preamp uv rg g h
    simp [applyReplayGain, h]
  · rw [partB .track 2 1
      { trackReplayGain := some (-6), trackPeakAmplitude := some (9 / 10) } (-6)
      (fun hc => RgMode.noConfusion hc) (fun hc => RgMode.noConfusion hc) rfl]
    have hpeak : peakOrOne (some ((9:ℝ) / 10)) = 9 / 10 := by
      simp only [peakOrOne]
      rw [if_neg (by norm_num)]
    rw [hpeak, if_neg hnoclamp, one_mul,
      min_eq_right (le_of_lt (lt_trans hub (by norm_num))),
      max_eq_right hpos.le, abs_sub_lt_iff]
    constructor <;> linarith

/-- Witness for C9: album mode at 0 dB gain, unit peak, unit volume. -/
theorem applyReplayGain_formula_and_example_witness :
    applyReplayGain .album 0
        (some { albumReplayGain := some 0, albumPeakAmplitude := some 1 }) 1 =
      max 0 (min 1 (1 *
        (if 1 < (10:ℝ) ^ (((0:ℝ) + 0) / 20) * peakOrOne (some 1) then
          1 / peakOrOne (some 1)
        else (10:ℝ) ^ (((0:ℝ) + 0) / 20)))) :=
  applyReplayGain_formula_and_example.1 0 1
    { albumReplayGain := some 0, albumPeakAmplitude := some 1 } 0 rfl

namespace Player

/-- `toggleShuffle` dispatch, OFF state: the first branch runs, then the
cache is cleared and a fresh preload happens. -/
theorem toggleShuffle_eq_off (env : Env) (s : Player)
    (hoff : s.shuffleActive = false) (hsmart : s.smartShuffleActive = false) :
    s.toggleShuffle env =
      .ok ((({ s.toggleShuffleOffToShuffle env with preloadCache := [] } : Player)).preloadNextTracks
        env.resolve) := by
  have cond1 : ¬(s.shuffleActive = true) ∧ ¬(s.smartShuffleActive = true) :=
    ⟨by simp [hoff], by simp [hsmart]⟩
  unfold toggleShuffle
  dsimp only
  rw [if_pos cond1]

/-- `toggleShuffle` dispatch, SHUFFLE state: the middle branch runs. -/
theorem toggleShuffle_eq_mid (env : Env) (s : Player)
    (hshuf : s.shuffleActive = true) (hsmart : s.smartShuffleActive = false) :
    s.toggleShuffle env =
      .ok ((({ s.toggleShuffleShuffleToSmart env with preloadCache := [] } : Player)).preloadNextTracks
        env.resolve) := by
  have cond1 : ¬(¬(s.shuffleActive = true) ∧ ¬(s.smartShuffleActive = true)) :=
    fun hc => hc.1 hshuf
  have cond2 : (s.shuffleActive = true) ∧ ¬(s.smartShuffleActive = true) :=
    ⟨hshuf, by simp [hsmart]⟩
  unfold toggleShuffle
  dsimp only
  rw [if_neg cond1, if_pos cond2]

/-- `toggleShuffle` dispatch, SMART state: the last branch runs. -/
theorem toggleShuffle_eq_smart (env : Env) (s : Player)
    (hsmart : s.smartShuffleActive = true) :
    s.toggleShuffle env =
      .ok ((({ s.toggleShuffleSmartToOff with preloadCache := [] } : Player)).preloadNextTracks
        env.resolve) := by
  have cond1 : ¬(¬(s.shuffleActive = true) ∧ ¬(s.smartShuffleActive = true)) :=
    fun hc => hc.2 hsmart
  have cond2 : ¬((s.shuffleActive = true) ∧ ¬(s.smartShuffleActive = true)) :=
    fun hc => hc.2 hsmart
  unfold toggleShuffle
  dsimp only
  rw [if_neg cond1, if_neg cond2]

/-- What a successful `enableSmartShuffle` can change: only `shuffledQueue`,
and only by insertions strictly after the current position, so the length
never shrinks and the entry at `currentQueueIndex` is untouched. -/
theorem enableSmartShuffle_ok (env : Env) (s sOut : Player)
    (h : s.enableSmartShuffle env = .ok sOut) :
    sOut.queue = s.queue ∧
    sOut.originalQueueBeforeShuffle = s.originalQueueBeforeShuffle ∧
    sOut.currentQueueIndex = s.currentQueueIndex ∧
    sOut.shuffleActive = s.shuffleActive ∧
    sOut.smartShuffleActive = s.smartShuffleActive ∧
    sOut.currentTrack = s.currentTrack ∧
    s.shuffledQueue.length ≤ sOut.shuffledQueue.length ∧
    (0 ≤ s.currentQueueIndex → s.currentQueueIndex.toNat < s.shuffledQueue.length →
      sOut.shuffledQueue.get? s.currentQueueIndex.toNat =
        s.shuffledQueue.get? s.currentQueueIndex.toNat) := by
  unfold enableSmartShuffle at h
  dsimp only at h
  repeat' split at h
  all_goals
    first
    | exact Except.noConfusion h
    | (injection h with h2
       subst h2
       refine ⟨rfl, rfl, rfl, rfl, rfl, rfl, ?_, ?_⟩
       · first
         | exact le_refl _
         | exact smartInjectLoop_length_le _ _ _ _ _ _
       · intro hc hlt
         first
         | rfl
         | exact smartInjectLoop_get?_preserved _ _ _ _ _ _ hc hlt)

end Player

namespace Player

/-- One preload pass adds at most two cache entries (the 2-ahead window). -/
theorem preloadNextTracks_cache_le (resolve : Nat → Option String) (s : Player) :
    (s.preloadNextTracks resolve).preloadCache.length ≤ s.preloadCache.length + 2 := by
  simp only [preloadNextTracks]
  refine le_trans (preloadFetch_length_le _ _ _) ?_
  have h2 := List.length_filterMap_le (fun i : Int =>
    if s.currentQueueIndex + i < ((s.getCurrentQueue).length : Int) then
      jsIndex s.getCurrentQueue (s.currentQueueIndex + i)
    else none) ([1, 2] : List Int)
  simp only [List.length_cons, List.length_nil] at h2
  omega

end Player

/-- C6 (amended): each `preloadNextTracks` pass adds at most 2 entries to
the cache; `toggleShuffle` (every branch), `setQueue` and `clearQueue`
invalidate the cache wholesale (after a toggle at most the fresh 2-ahead
window is cached).  But `addToQueue`, `addNextToQueue` and
`removeFromQueue` do NOT clear the cache and no entry is ever evicted
individually, so across track advances the cache grows beyond the 2-ahead
window (see the counterexample). -/
theorem preload_cache_clearing_and_growth :
    (∀ (resolve : Nat → Option String) (s : Player),
      (s.preloadNextTracks resolve).preloadCache.length ≤ s.preloadCache.length + 2) ∧
    (∀ (env : Env) (s s2 : Player), s.toggleShuffle env = .ok s2 →
      s2.preloadCache.length ≤ 2) ∧
    (∀ (ts : List Track) (k : Int) (aq : Bool) (s : Player),
      (s.setQueue ts k aq).preloadCache = []) ∧
    (∀ s : Player, s.clearQueue.preloadCache = []) := by
  refine ⟨Player.preloadNextTracks_cache_le, ?_, ?_, ?_⟩
  · intro env s s2 h
    unfold Player.toggleShuffle at h
    dsimp only at h
    injection h with h2
    subst h2
    refine le_trans (Player.preloadNextTracks_cache_le _ _) ?_
    simp
  · intro ts k aq s
    rfl
  · intro s
    rfl

/-- Witness for C6 at concrete states: a preload pass, a toggle, a
`setQueue` and a `clearQueue`. -/
theorem preload_cache_clearing_and_growth_witness :
    (sFour.preloadNextTracks envResolve.resolve).preloadCache.length ≤
      sFour.preloadCache.length + 2 ∧
    (∃ s2, sThreeMid.toggleShuffle envResolve = .ok s2 ∧
      s2.preloadCache.length ≤ 2) ∧
    (sFour.setQueue [trackA] 0 false).preloadCache = [] ∧
    sFour.clearQueue.preloadCache = [] :=
  ⟨preload_cache_clearing_and_growth.1 envResolve.resolve sFour,
   ⟨_, rfl, preload_cache_clearing_and_growth.2.1 envResolve sThreeMid _ rfl⟩,
   preload_cache_clearing_and_growth.2.2.1 [trackA] 0 false sFour,
   preload_cache_clearing_and_growth.2.2.2 sFour⟩

/-- Counterexample to C6 as stated: starting from a four-track queue with an
empty cache, one preload pass followed by one track advance leaves THREE
entries in the cache (nothing is transient or being evicted — the stale
entry for the already-reached track persists), and a subsequent
`removeFromQueue` does not invalidate the cache either. -/
theorem preload_cache_exceeds_two_entries :
    2 < ((sFour.preloadNextTracks envResolve.resolve).playNext
        envResolve).preloadCache.length ∧
    (((sFour.preloadNextTracks envResolve.resolve).playNext
        envResolve).removeFromQueue envResolve 3).preloadCache ≠ [] := by
  refine ⟨?_, ?_⟩ <;> decide

/-- C4: the OFF → SHUFFLE transition of `toggleShuffle` (for any permutation
the randomized sort produces) yields a `shuffledQueue` holding exactly
the same multiset of track ids as the base queue, with the
currently-playing track at position 0 and `currentQueueIndex = 0` when a
track was playing, and `currentQueueIndex = -1` otherwise; the base queue
itself is untouched. -/
theorem toggleShuffle_off_to_shuffle_permutation (env : Env) (s s2 : Player)
    (hperm : ∀ l, (env.shuffleFn l).Perm l)
    (hoff : s.shuffleActive = false) (hsmart : s.smartShuffleActive = false)
    (htog : s.toggleShuffle env = .ok s2) :
    (s2.shuffledQueue.map (fun t => t.id)).Perm (s.queue.map (fun t => t.id)) ∧
    (∀ t, jsIndex s.queue s.currentQueueIndex = some t →
      s2.shuffledQueue.head? = some t ∧ s2.currentQueueIndex = 0) ∧
    (jsIndex s.queue s.currentQueueIndex = none → s2.currentQueueIndex = -1) ∧
    s2.queue = s.queue := by
  rw [Player.toggleShuffle_eq_off env s hoff hsmart] at htog
  injection htog with h2
  subst h2
  simp only [Player.preloadNextTracks_shuffledQueue, Player.preloadNextTracks_queue,
    Player.preloadNextTracks_currentQueueIndex]
  cases hcur : jsIndex s.queue s.currentQueueIndex with
  | some t =>
    have hc0 : 0 ≤ s.currentQueueIndex := by
      by_contra hc
      simp [jsIndex, hc] at hcur
    have hget : s.queue.get? s.currentQueueIndex.toNat = some t := by
      simpa [jsIndex, hc0] using hcur
    have hlt : s.currentQueueIndex.toNat < s.queue.length := by
      by_contra hc
      rw [List.get?_eq_none.mpr (by omega)] at hget
      exact Option.noConfusion hget
    have hstart : jsSpliceStart s.queue.length s.currentQueueIndex =
        s.currentQueueIndex.toNat := by
      unfold jsSpliceStart
      rw [if_neg (by omega)]
      omega
    have hq : s.queue.Perm (t :: removeAt s.queue s.currentQueueIndex.toNat) :=
      perm_cons_removeAt _ _ _ hget
    have hsf := hperm (removeAt s.queue s.currentQueueIndex.toNat)
    simp only [Player.toggleShuffleOffToShuffle, hcur, hstart, if_pos hc0]
    refine ⟨?_, ?_, ?_, trivial⟩
    · exact (((hsf.cons t).trans hq.symm).map (fun u => u.id))
    · intro u hu
      injection hu with hu2
      subst hu2
      exact ⟨rfl, trivial⟩
    · intro hn
      exact Option.noConfusion hn
  | none =>
    simp only [Player.toggleShuffleOffToShuffle, hcur]
    refine ⟨(hperm s.queue).map (fun u => u.id), ?_, fun _ => trivial, trivial⟩
    intro u hu
    exact Option.noConfusion hu

/-- Witness for C4: the identity permutation on a three-track queue playing
the middle track. -/
theorem toggleShuffle_off_to_shuffle_permutation_witness :
    ∃ s2, sThreeMid.toggleShuffle envResolve = .ok s2 ∧
      (s2.shuffledQueue.map (fun t => t.id)).Perm
        (sThreeMid.queue.map (fun t => t.id)) ∧
      s2.shuffledQueue.head? = some trackB ∧ s2.currentQueueIndex = 0 :=
  ⟨_, rfl,
   (toggleShuffle_off_to_shuffle_permutation envResolve sThreeMid _
     (fun l => List.Perm.refl l) rfl rfl rfl).1,
   ((toggleShuffle_off_to_shuffle_permutation envResolve sThreeMid _
     (fun l => List.Perm.refl l) rfl rfl rfl).2.1 trackB (by decide)).1,
   ((toggleShuffle_off_to_shuffle_permutation envResolve sThreeMid _
     (fun l => List.Perm.refl l) rfl rfl rfl).2.1 trackB (by decide)).2⟩

/-- C8: an autoqueue fetch that returns recommendations never appends a
track whose id is already in the active queue; the survivors (flagged
`isAutoqueue`) are appended in place to the BASE queue while the shuffled
view is untouched; and when at least one track was added the seed list is
re-seeded as the current track followed by the first 3 newly added
tracks.  `loading` is cleared. -/
theorem autoqueue_fetch_filters_appends_and_reseeds (env : Env) (s : Player)
    (recs : List Track) (c : Track) (existingIds : List Nat) (newTracks : List Track)
    (henabled : s.autoqueueEnabled = true) (hloading : s.autoqueueLoading = false)
    (hcur : s.currentTrack = some c)
    (hrec : ∀ seeds, env.recommendedTracksFor seeds = .ok recs)
    (hne : recs ≠ [])
    (hids : existingIds = s.getCurrentQueue.map (fun t => t.id))
    (hnew : newTracks = (recs.filter (fun t => !(existingIds.contains t.id))).map
      (fun t => { t with isAutoqueue := true })) :
    (s.fetchAutoqueueRecommendations env).queue = s.queue ++ newTracks ∧
    (s.fetchAutoqueueRecommendations env).shuffledQueue = s.shuffledQueue ∧
    (∀ t ∈ recs, existingIds.contains t.id = true → ∀ u ∈ newTracks, u.id ≠ t.id) ∧
    (newTracks ≠ [] → (s.fetchAutoqueueRecommendations env).autoqueueSeeds =
      c :: newTracks.take 3) ∧
    (s.fetchAutoqueueRecommendations env).autoqueueLoading = false := by
  subst hids
  subst hnew
  have hsep : ∀ t ∈ recs, (s.getCurrentQueue.map (fun u => u.id)).contains t.id = true →
      ∀ u ∈ (recs.filter
          (fun v => !((s.getCurrentQueue.map (fun w => w.id)).contains v.id))).map
        (fun v => { v with isAutoqueue := true }), u.id ≠ t.id := by
    intro t ht hcont u hu
    rcases List.mem_map.mp hu with ⟨v, hvmem, rfl⟩
    rcases List.mem_filter.mp hvmem with ⟨-, hvfilt⟩
    intro heq
    rw [Bool.not_eq_true'] at hvfilt
    have : (s.getCurrentQueue.map (fun w => w.id)).contains v.id = true := by
      show (s.getCurrentQueue.map (fun w => w.id)).contains
        ({ v with isAutoqueue := true } : Track).id = true
      rw [heq]
      exact hcont
    rw [this] at hvfilt
    exact Bool.noConfusion hvfilt
  have hmain : s.fetchAutoqueueRecommendations env =
      (let newTracks := (recs.filter
          (fun v => !((s.getCurrentQueue.map (fun w => w.id)).contains v.id))).map
        (fun v => { v with isAutoqueue := true })
      let s1 := { s with queue := s.queue ++ newTracks }
      let s2 :=
        if 0 < newTracks.length then
          { s1 with autoqueueSeeds := [c] ++ newTracks.take 3 }
        else s1
      ({ s2 with autoqueueLoading := false }).preloadNextTracks env.resolve) := by
    unfold Player.fetchAutoqueueRecommendations
    rw [if_neg (by simp [henabled, hloading])]
    dsimp only
    rw [hrec, hcur]
    dsimp only
    rw [if_neg (by simpa using hne)]
  rw [hmain]
  dsimp only
  refine ⟨?_, ?_, hsep, ?_, ?_⟩
  · split <;> simp
  · split <;> simp
  · intro hnonempty
    rw [if_pos (by simpa [List.length_pos] using hnonempty)]
    simp
  · split <;> simp

/-- Witness for C8: two recommendations out of three are new; they land at
the end of the base queue with the autoqueue flag, and the seeds become
the current track plus the two new ones. -/
theorem autoqueue_fetch_filters_appends_and_reseeds_witness :
    (sAutoq.fetchAutoqueueRecommendations envAutoq).queue =
      sAutoq.queue ++ [{ id := 7, isAutoqueue := true }, { id := 8, isAutoqueue := true }] ∧
    (sAutoq.fetchAutoqueueRecommendations envAutoq).autoqueueSeeds =
      trackA :: [({ id := 7, isAutoqueue := true } : Track),
        { id := 8, isAutoqueue := true }] := by
  have h := autoqueue_fetch_filters_appends_and_reseeds envAutoq sAutoq
    [trackA, { id := 7 }, { id := 8 }] trackA
    (sAutoq.getCurrentQueue.map (fun t => t.id)) _
    rfl rfl rfl (fun _ => rfl) (by decide) rfl rfl
  refine ⟨?_, ?_⟩
  · rw [h.1]
    decide
  · rw [h.2.2.2.1 (by decide)]
    decide

namespace Player

/-- The OFF → SHUFFLE branch with a playing track: flags set, index 0,
snapshot taken, base queue untouched, playing track at the head of the
shuffled queue. -/
theorem toggleShuffleOffToShuffle_spec (env : Env) (s : Player) (t : Track)
    (hplay : jsIndex s.queue s.currentQueueIndex = some t) :
    (s.toggleShuffleOffToShuffle env).shuffleActive = true ∧
    (s.toggleShuffleOffToShuffle env).smartShuffleActive = false ∧
    (s.toggleShuffleOffToShuffle env).currentQueueIndex = 0 ∧
    (s.toggleShuffleOffToShuffle env).originalQueueBeforeShuffle = s.queue ∧
    (s.toggleShuffleOffToShuffle env).queue = s.queue ∧
    (s.toggleShuffleOffToShuffle env).shuffledQueue.get? 0 = some t := by
  simp [toggleShuffleOffToShuffle, hplay]

end Player

/-- C5: toggling shuffle on and then cycling back to OFF through the smart
state (with the smart entry succeeding) and with no intervening queue
edits restores the base queue to its exact original order and relocates
`currentQueueIndex` to the position, found by first id match, of the
track that was last playing — a position that exists and indeed carries
that id.  Separately, when the id of the playing track is absent from the
restored list, the SMART → OFF transition sets `currentQueueIndex` to
−1. -/
theorem shuffle_roundtrip_restores_queue_and_index
    (env1 env2 env3 : Env) (s0 s1 s2 s3 : Player) (t : Track)
    (hoff : s0.shuffleActive = false) (hsmart0 : s0.smartShuffleActive = false)
    (hplay : jsIndex s0.queue s0.currentQueueIndex = some t)
    (h1 : s0.toggleShuffle env1 = .ok s1)
    (h2 : s1.toggleShuffle env2 = .ok s2)
    (hsucc : s2.shuffleActive = true)
    (h3 : s2.toggleShuffle env3 = .ok s3) :
    (s3.queue = s0.queue ∧
      s3.currentQueueIndex = jsFindIndexTrack s0.queue t.id ∧
      0 ≤ s3.currentQueueIndex ∧
      (∃ u, jsIndex s0.queue s3.currentQueueIndex = some u ∧ u.id = t.id) ∧
      s3.shuffleActive = false ∧ s3.smartShuffleActive = false) ∧
    (∀ (env : Env) (s sAfter : Player) (ct : Track),
      s.smartShuffleActive = true →
      jsIndex s.shuffledQueue s.currentQueueIndex = some ct →
      (∀ u ∈ s.originalQueueBeforeShuffle, u.id ≠ ct.id) →
      s.toggleShuffle env = .ok sAfter → sAfter.currentQueueIndex = -1) := by
  have notFoundPart : ∀ (env : Env) (s sAfter : Player) (ct : Track),
      s.smartShuffleActive = true →
      jsIndex s.shuffledQueue s.currentQueueIndex = some ct →
      (∀ u ∈ s.originalQueueBeforeShuffle, u.id ≠ ct.id) →
      s.toggleShuffle env = .ok sAfter → sAfter.currentQueueIndex = -1 := by
    intro env s sAfter ct hsm hidx hnomem htog
    rw [Player.toggleShuffle_eq_smart env s hsm] at htog
    injection htog with hte
    subst hte
    simp only [Player.preloadNextTracks_currentQueueIndex]
    show (s.toggleShuffleSmartToOff).currentQueueIndex = -1
    simp only [Player.toggleShuffleSmartToOff, hidx]
    exact jsFindIndexTrack_eq_neg_one _ _ hnomem
  refine ⟨?_, notFoundPart⟩
  -- step 1: OFF → SHUFFLE
  rw [Player.toggleShuffle_eq_off env1 s0 hoff hsmart0] at h1
  injection h1 with h1e
  subst h1e
  obtain ⟨m1a, m1b, m1c, m1d, m1e, m1f⟩ :=
    Player.toggleShuffleOffToShuffle_spec env1 s0 t hplay
  set M1 := s0.toggleShuffleOffToShuffle env1 with hM1
  set X := (({ M1 with preloadCache := [] } : Player)).preloadNextTracks env1.resolve
    with hX
  have hx_shuf : X.shuffleActive = true := by
    rw [hX, Player.preloadNextTracks_shuffleActive]
    exact m1a
  have hx_smart : X.smartShuffleActive = false := by
    rw [hX, Player.preloadNextTracks_smartShuffleActive]
    exact m1b
  have hx_cur : X.currentQueueIndex = 0 := by
    rw [hX, Player.preloadNextTracks_currentQueueIndex]
    exact m1c
  have hx_orig : X.originalQueueBeforeShuffle = s0.queue := by
    rw [hX, Player.preloadNextTracks_originalQueue]
    exact m1d
  have hx_sq : X.shuffledQueue.get? 0 = some t := by
    rw [hX, Player.preloadNextTracks_shuffledQueue]
    exact m1f
  -- step 2: SHUFFLE → SMART
  rw [Player.toggleShuffle_eq_mid env2 X hx_shuf hx_smart] at h2
  injection h2 with h2e
  subst h2e
  cases hEsm : Player.enableSmartShuffle env2 { X with smartShuffleActive := true } with
  | error e =>
    exfalso
    have hmid : Player.toggleShuffleShuffleToSmart env2 X =
        { X with smartShuffleActive := false, shuffleActive := false } := by
      simp only [Player.toggleShuffleShuffleToSmart]
      rw [hEsm]
    rw [Player.preloadNextTracks_shuffleActive, hmid] at hsucc
    exact Bool.noConfusion hsucc
  | ok sCore =>
    have hmid : Player.toggleShuffleShuffleToSmart env2 X = sCore := by
      simp only [Player.toggleShuffleShuffleToSmart]
      rw [hEsm]
    obtain ⟨e1, e2, e3, e4, e5, e6, e7, e8⟩ :=
      Player.enableSmartShuffle_ok env2 _ sCore hEsm
    have hsq_len : 0 < X.shuffledQueue.length := by
      by_contra hc
      rw [List.get?_eq_none.mpr (by omega)] at hx_sq
      exact Option.noConfusion hx_sq
    have hcore_sq : sCore.shuffledQueue.get? 0 = some t := by
      have := e8 (by simp [hx_cur]) (by simpa [hx_cur] using hsq_len)
      simp only [hx_cur] at this
      rw [show ((0:Int)).toNat = 0 from rfl] at this
      rw [this]
      exact hx_sq
    have hcore_smart : sCore.smartShuffleActive = true := by
      rw [e5]
    have hcore_cur : sCore.currentQueueIndex = 0 := by
      rw [e3]
      exact hx_cur
    have hcore_orig : sCore.originalQueueBeforeShuffle = s0.queue := by
      rw [e2]
      exact hx_orig
    -- s2 fields
    have hs2_smart : ((({ Player.toggleShuffleShuffleToSmart env2 X with
        preloadCache := [] } : Player)).preloadNextTracks
        env2.resolve).smartShuffleActive = true := by
      rw [Player.preloadNextTracks_smartShuffleActive, hmid]
      exact hcore_smart
    -- step 3: SMART → OFF
    rw [Player.toggleShuffle_eq_smart env3 _ hs2_smart] at h3
    injection h3 with h3e
    subst h3e
    have hs2_sq : ((({ Player.toggleShuffleShuffleToSmart env2 X with
        preloadCache := [] } : Player)).preloadNextTracks
        env2.resolve).shuffledQueue.get? 0 = some t := by
      rw [Player.preloadNextTracks_shuffledQueue, hmid]
      exact hcore_sq
    have hs2_cur : ((({ Player.toggleShuffleShuffleToSmart env2 X with
        preloadCache := [] } : Player)).preloadNextTracks
        env2.resolve).currentQueueIndex = 0 := by
      rw [Player.preloadNextTracks_currentQueueIndex, hmid]
      exact hcore_cur
    have hs2_orig : ((({ Player.toggleShuffleShuffleToSmart env2 X with
        preloadCache := [] } : Player)).preloadNextTracks
        env2.resolve).originalQueueBeforeShuffle = s0.queue := by
      rw [Player.preloadNextTracks_originalQueue, hmid]
      exact hcore_orig
    have hs2_idx : jsIndex ((({ Player.toggleShuffleShuffleToSmart env2 X with
        preloadCache := [] } : Player)).preloadNextTracks env2.resolve).shuffledQueue
        ((({ Player.toggleShuffleShuffleToSmart env2 X with
        preloadCache := [] } : Player)).preloadNextTracks
        env2.resolve).currentQueueIndex = some t := by
      rw [hs2_cur]
      unfold jsIndex
      rw [if_pos (by omega)]
      exact hs2_sq
    have hfinal : Player.toggleShuffleSmartToOff
        ((({ Player.toggleShuffleShuffleToSmart env2 X with
        preloadCache := [] } : Player)).preloadNextTracks env2.resolve) =
        { ((({ Player.toggleShuffleShuffleToSmart env2 X with
            preloadCache := [] } : Player)).preloadNextTracks env2.resolve) with
          shuffleActive := false, smartShuffleActive := false,
          queue := s0.queue,
          currentQueueIndex := jsFindIndexTrack s0.queue t.id } := by
      simp only [Player.toggleShuffleSmartToOff, hs2_idx, hs2_orig]
    have hmem : t ∈ s0.queue := by
      have hc0 : 0 ≤ s0.currentQueueIndex := by
        by_contra hc
        simp [jsIndex, hc] at hplay
      have hget : s0.queue.get? s0.currentQueueIndex.toNat = some t := by
        simpa [jsIndex, hc0] using hplay
      exact List.get?_mem hget
    have hnn : 0 ≤ jsFindIndexTrack s0.queue t.id :=
      jsFindIndexTrack_mem_nonneg s0.queue t hmem
    obtain ⟨u, hu, huid⟩ := jsFindIndexTrack_found s0.queue t.id hnn
    refine ⟨?_, ?_, ?_, ⟨u, ?_, huid⟩, ?_, ?_⟩
    · rw [Player.preloadNextTracks_queue, hfinal]
    · rw [Player.preloadNextTracks_currentQueueIndex, hfinal]
    · rw [Player.preloadNextTracks_currentQueueIndex, hfinal]
      exact hnn
    · rw [Player.preloadNextTracks_currentQueueIndex, hfinal]
      unfold jsIndex
      rw [if_pos hnn]
      exact hu
    · rw [Player.preloadNextTracks_shuffleActive, hfinal]
    · rw [Player.preloadNextTracks_smartShuffleActive, hfinal]

/-- Witness for C5: a concrete three-toggle round trip on `[1,2,3]` playing
track 2 — the base queue comes back in order and the index returns to
position 1. -/
theorem shuffle_roundtrip_restores_queue_and_index_witness :
    ∃ s1 s2 s3 : Player,
      sThreeMid.toggleShuffle envSmartOk = .ok s1 ∧
      s1.toggleShuffle envSmartOk = .ok s2 ∧
      s2.toggleShuffle envSmartOk = .ok s3 ∧
      s3.queue = sThreeMid.queue ∧
      s3.currentQueueIndex = 1 := by
  refine ⟨_, _, _, rfl, rfl, rfl, ?_, ?_⟩
  · exact (shuffle_roundtrip_restores_queue_and_index envSmartOk envSmartOk envSmartOk
      sThreeMid _ _ _ trackB rfl rfl (by decide) rfl rfl (by decide) rfl).1.1
  · have h2 := (shuffle_roundtrip_restores_queue_and_index envSmartOk envSmartOk envSmartOk
      sThreeMid _ _ _ trackB rfl rfl (by decide) rfl rfl (by decide) rfl).1.2.1
    rw [h2]
    decide

namespace Player

/-- Preloading touches only the cache, so it cannot change whether the
index is in bounds. -/
theorem indexInBounds_preload (resolve : Nat → Option String) (s : Player) :
    (s.preloadNextTracks resolve).indexInBounds ↔ s.indexInBounds :=
  Iff.rfl

/-- `playTrackFromQueue` touches only `currentTrack` and the cache, so it
cannot change whether the index is in bounds. -/
theorem indexInBounds_playTrack (env : Env) (s : Player) :
    (s.playTrackFromQueue env).indexInBounds ↔ s.indexInBounds := by
  unfold playTrackFromQueue
  split
  · exact Iff.rfl
  · split
    · exact Iff.rfl
    · exact Iff.rfl

end Player

/-- Counterexample to C1 as stated: removing the currently-playing track
when it is the last element (queue `[1]`, index 0, `removeFromQueue 0`)
leaves `currentQueueIndex = 0` while the active queue is empty, i.e. the
index ends one past the end, outside `[-1, length-1]`. -/
theorem removeFromQueue_last_current_breaks_bounds :
    sOne.indexInBounds ∧
    ¬ (sOne.removeFromQueue envResolve 0).indexInBounds ∧
    (sOne.removeFromQueue envResolve 0).currentQueueIndex = 0 ∧
    (sOne.removeFromQueue envResolve 0).getCurrentQueue.length = 0 := by
  refine ⟨?_, ?_, ?_, ?_⟩ <;> decide

/-- C1 (amended): starting from a state whose index is within
`[-1, activeQueue.length - 1]`, the index is still within those bounds
after `addNextToQueue`, `moveInQueue`, `clearQueue`; after `setQueue`
when the requested start index lies in `[-1, tracks.length - 1]`; after
`addToQueue` when shuffle is inactive; after `removeFromQueue` of an
in-range position EXCEPT when the removed position is the current one and
the last one (the case of the counterexample); and after every
`toggleShuffle` branch — for the failure rollback of the smart entry
under the extra proviso that the index also fits the base queue it falls
back to. -/
theorem queue_mutations_preserve_index_bounds (env : Env) (s : Player)
    (t : Track) (i j k : Int) (ts : List Track) (aq : Bool)
    (hs : s.indexInBounds) :
    (s.addNextToQueue env t).indexInBounds ∧
    (s.moveInQueue i j).indexInBounds ∧
    s.clearQueue.indexInBounds ∧
    (-1 ≤ k → k ≤ (ts.length : Int) - 1 → (s.setQueue ts k aq).indexInBounds) ∧
    (s.shuffleActive = false → (s.addToQueue env t).indexInBounds) ∧
    (0 ≤ i → i < (s.getCurrentQueue.length : Int) →
      ¬(i = s.currentQueueIndex ∧ i = (s.getCurrentQueue.length : Int) - 1) →
      (s.removeFromQueue env i).indexInBounds) ∧
    (s.shuffleActive = false → s.smartShuffleActive = false →
      ∀ s2, s.toggleShuffle env = .ok s2 → s2.indexInBounds) ∧
    (s.shuffleActive = true → s.smartShuffleActive = false →
      ((Player.enableSmartShuffle env
          { s with smartShuffleActive := true }).isOk = false →
        s.currentQueueIndex < (s.queue.length : Int)) →
      ∀ s2, s.toggleShuffle env = .ok s2 → s2.indexInBounds) ∧
    (s.smartShuffleActive = true →
      ∀ s2, s.toggleShuffle env = .ok s2 → s2.indexInBounds) := by
  obtain ⟨hsl, hsr⟩ := hs
  unfold Player.getCurrentQueue at hsr
  refine ⟨?_, ?_, ?_, ?_, ?_, ?_, ?_, ?_, ?_⟩
  · -- addNextToQueue
    simp only [Player.addNextToQueue]
    rw [Player.indexInBounds_preload]
    split
    · rename_i hshuf
      simp only [hshuf, if_true] at hsr
      unfold Player.indexInBounds Player.getCurrentQueue
      simp only [hshuf, if_true]
      rw [length_insertAt]
      refine ⟨hsl, ?_⟩
      push_cast at hsr ⊢
      omega
    · rename_i hshuf
      have hshuf2 : s.shuffleActive = false := by simpa using hshuf
      simp only [hshuf2, Bool.false_eq_true, if_false] at hsr
      unfold Player.indexInBounds Player.getCurrentQueue
      simp only [hshuf2, Bool.false_eq_true, if_false]
      rw [length_insertAt]
      refine ⟨hsl, ?_⟩
      push_cast at hsr ⊢
      omega
  · -- moveInQueue
    simp only [Player.moveInQueue]
    split
    · exact ⟨hsl, by unfold Player.getCurrentQueue; exact hsr⟩
    · split
      · exact ⟨hsl, by unfold Player.getCurrentQueue; exact hsr⟩
      · rename_i hfrom hto
        push_neg at hfrom hto
        split
        · exact ⟨hsl, by unfold Player.getCurrentQueue; exact hsr⟩
        · rename_i track hget
          have hfl : i.toNat < s.getCurrentQueue.length := by omega
          have hafter : (insertAt (removeAt s.getCurrentQueue i.toNat) j.toNat
              track).length = s.getCurrentQueue.length := by
            rw [length_insertAt]
            have := length_removeAt s.getCurrentQueue i.toNat hfl
            omega
          unfold Player.getCurrentQueue at hafter hfrom hto
          split
          · rename_i hshuf
            simp only [hshuf, if_true] at hsr hafter hfrom hto
            unfold Player.indexInBounds Player.getCurrentQueue
            simp only [hshuf, if_true]
            rw [hafter]
            split_ifs <;> constructor <;> omega
          · rename_i hshuf
            have hshuf2 : s.shuffleActive = false := by simpa using hshuf
            simp only [hshuf2, Bool.false_eq_true, if_false] at hsr hafter hfrom hto
            unfold Player.indexInBounds Player.getCurrentQueue
            simp only [hshuf2, Bool.false_eq_true, if_false]
            rw [hafter]
            split_ifs <;> constructor <;> omega
  · -- clearQueue
    unfold Player.indexInBounds Player.clearQueue Player.getCurrentQueue
    split <;> simp
  · -- setQueue
    intro hk1 hk2
    unfold Player.indexInBounds Player.setQueue Player.getCurrentQueue
    simp only [Bool.false_eq_true, if_false]
    exact ⟨hk1, hk2⟩
  · -- addToQueue with shuffle off
    intro hshuf
    simp only [hshuf, Bool.false_eq_true, if_false] at hsr
    simp only [Player.addToQueue]
    split
    · rw [Player.indexInBounds_playTrack]
      unfold Player.indexInBounds Player.getCurrentQueue
      simp only [hshuf, Bool.false_eq_true, if_false]
      simp only [List.length_append, List.length_cons, List.length_nil]
      constructor <;> (push_cast; omega)
    · unfold Player.indexInBounds Player.getCurrentQueue
      simp only [hshuf, Bool.false_eq_true, if_false]
      simp only [List.length_append, List.length_cons, List.length_nil]
      refine ⟨hsl, ?_⟩
      push_cast at hsr ⊢
      omega
  · -- removeFromQueue, in range, not the current-last case
    intro hi0 hilt hnot
    simp only [Player.removeFromQueue]
    rw [Player.indexInBounds_preload]
    have hstart : jsSpliceStart s.getCurrentQueue.length i = i.toNat := by
      unfold jsSpliceStart
      rw [if_neg (by omega)]
      omega
    have hrem : (removeAt s.getCurrentQueue i.toNat).length + 1 =
        s.getCurrentQueue.length := length_removeAt _ _ (by omega)
    rw [hstart]
    unfold Player.getCurrentQueue at hrem hilt hnot
    split
    · rename_i hshuf
      simp only [hshuf, if_true] at hsr hrem hilt hnot
      split
      · split
        · unfold Player.indexInBounds Player.getCurrentQueue
          simp only [hshuf, if_true]
          split_ifs <;> constructor <;> omega
        · unfold Player.indexInBounds Player.getCurrentQueue
          simp only [hshuf, if_true]
          split_ifs <;> constructor <;> omega
      · unfold Player.indexInBounds Player.getCurrentQueue
        simp only [hshuf, if_true]
        split_ifs <;> constructor <;> omega
    · rename_i hshuf
      have hshuf2 : s.shuffleActive = false := by simpa using hshuf
      simp only [hshuf2, Bool.false_eq_true, if_false] at hsr hrem hilt hnot
      unfold Player.indexInBounds Player.getCurrentQueue
      simp only [hshuf2, Bool.false_eq_true, if_false]
      split_ifs <;> constructor <;> omega
  · -- toggleShuffle, OFF -> SHUFFLE
    intro hshuf hsmart s2 htog
    rw [Player.toggleShuffle_eq_off env s hshuf hsmart] at htog
    injection htog with hte
    subst hte
    rw [Player.indexInBounds_preload]
    cases hcur : jsIndex s.queue s.currentQueueIndex with
    | some u =>
      unfold Player.indexInBounds Player.getCurrentQueue
      simp [Player.toggleShuffleOffToShuffle, hcur]
    | none =>
      unfold Player.indexInBounds Player.getCurrentQueue
      simp [Player.toggleShuffleOffToShuffle, hcur]
  · -- toggleShuffle, SHUFFLE -> SMART
    intro hshuf hsmart hguard s2 htog
    rw [Player.toggleShuffle_eq_mid env s hshuf hsmart] at htog
    injection htog with hte
    subst hte
    rw [Player.indexInBounds_preload]
    simp only [hshuf, if_true] at hsr
    cases hEsm : Player.enableSmartShuffle env { s with smartShuffleActive := true } with
    | ok sCore =>
      have hmid : Player.toggleShuffleShuffleToSmart env s = sCore := by
        simp only [Player.toggleShuffleShuffleToSmart]
        rw [hEsm]
      obtain ⟨e1, e2, e3, e4, e5, e6, e7, e8⟩ :=
        Player.enableSmartShuffle_ok env _ sCore hEsm
      have hcore_shuf : sCore.shuffleActive = true := by
        rw [e4]
        exact hshuf
      unfold Player.indexInBounds Player.getCurrentQueue
      rw [hmid]
      simp only [hcore_shuf, if_true, e3]
      have e7b : s.shuffledQueue.length ≤ sCore.shuffledQueue.length := e7
      refine ⟨hsl, ?_⟩
      omega
    | error e =>
      have hmid : Player.toggleShuffleShuffleToSmart env s =
          { s with smartShuffleActive := false, shuffleActive := false } := by
        simp only [Player.toggleShuffleShuffleToSmart]
        rw [hEsm]
      have hcur : s.currentQueueIndex < (s.queue.length : Int) :=
        hguard (by rw [hEsm]; rfl)
      unfold Player.indexInBounds Player.getCurrentQueue
      rw [hmid]
      simp only [Bool.false_eq_true, if_false]
      exact ⟨hsl, by omega⟩
  · -- toggleShuffle, SMART -> OFF
    intro hsmart s2 htog
    rw [Player.toggleShuffle_eq_smart env s hsmart] at htog
    injection htog with hte
    subst hte
    rw [Player.indexInBounds_preload]
    unfold Player.indexInBounds Player.getCurrentQueue Player.toggleShuffleSmartToOff
    cases hidx : jsIndex s.shuffledQueue s.currentQueueIndex with
    | some ct =>
      simp only [hidx, Bool.false_eq_true, if_false]
      rcases jsFindIndexTrack_bounds s.originalQueueBeforeShuffle ct.id with hb | hb
      · rw [hb]
        constructor <;> omega
      · constructor <;> omega
    | none =>
      simp only [hidx, Bool.false_eq_true, if_false]
      constructor <;> omega

/-- Witness for C1 at concrete states: every amended conjunct exercised,
including all three toggle branches (success and rollback). -/
theorem queue_mutations_preserve_index_bounds_witness :
    (sThreeMid.addNextToQueue envResolve trackD).indexInBounds ∧
    (sThreeMid.moveInQueue 0 2).indexInBounds ∧
    sThreeMid.clearQueue.indexInBounds ∧
    (sThreeMid.setQueue [trackA] 0 false).indexInBounds ∧
    (sThreeMid.addToQueue envResolve trackD).indexInBounds ∧
    (sThreeMid.removeFromQueue envResolve 0).indexInBounds ∧
    (∃ s2, sThreeMid.toggleShuffle envResolve = .ok s2 ∧ s2.indexInBounds) ∧
    (∃ s2, sShuffleTwo.toggleShuffle envFailRec = .ok s2 ∧ s2.indexInBounds) ∧
    (∃ s2, sSmartOrphan.toggleShuffle envResolve = .ok s2 ∧ s2.indexInBounds) := by
  refine ⟨?_, ?_, ?_, ?_, ?_, ?_, ⟨_, rfl, ?_⟩, ⟨_, rfl, ?_⟩, ⟨_, rfl, ?_⟩⟩
  · exact (queue_mutations_preserve_index_bounds envResolve sThreeMid trackD 0 2 0
      [trackA] false (by decide)).1
  · exact (queue_mutations_preserve_index_bounds envResolve sThreeMid trackD 0 2 0
      [trackA] false (by decide)).2.1
  · exact (queue_mutations_preserve_index_bounds envResolve sThreeMid trackD 0 2 0
      [trackA] false (by decide)).2.2.1
  · exact (queue_mutations_preserve_index_bounds envResolve sThreeMid trackD 0 2 0
      [trackA] false (by decide)).2.2.2.1 (by decide) (by decide)
  · exact (queue_mutations_preserve_index_bounds envResolve sThreeMid trackD 0 2 0
      [trackA] false (by decide)).2.2.2.2.1 rfl
  · exact (queue_mutations_preserve_index_bounds envResolve sThreeMid trackD 0 2 0
      [trackA] false (by decide)).2.2.2.2.2.1 (by decide) (by decide) (by decide)
  · exact (queue_mutations_preserve_index_bounds envResolve sThreeMid trackD 0 2 0
      [trackA] false (by decide)).2.2.2.2.2.2.1 rfl rfl _ rfl
  · exact (queue_mutations_preserve_index_bounds envFailRec sShuffleTwo trackD 0 2 0
      [trackA] false (by decide)).2.2.2.2.2.2.2.1 rfl rfl (fun _ => by decide) _ rfl
  · exact (queue_mutations_preserve_index_bounds envResolve sSmartOrphan trackD 0 2 0
      [trackA] false (by decide)).2.2.2.2.2.2.2.2 rfl _ rfl
